import Mathlib

set_option autoImplicit false

/-!
Verification of the Boulder CA core (`ca/ca.go`) and the `identifier`
package against its natural-language specification.

Byte strings are modelled as `List Nat` (each element a byte value);
Go string values are modelled as `List Char`; Go errors are modelled as
an explicit kind plus message; the external collaborators of the CA
(Storage Authority, Policy Authority, HSM-backed issuers, SCT provider,
randomness source) are modelled as an oracle record holding the outcome
each call would produce, and each CA operation returns its result
together with the list of outbound calls it performed, in order.
-/

namespace Boulder

/-! ### ASN.1 pull parser (golang.org/x/crypto/cryptobyte)

`readASN1` mirrors `(*cryptobyte.String).ReadASN1(&out, tag)` with
`skipHeader = true`: on success it returns the content octets of the
element (header stripped) together with the remainder of the input
after the whole element.  Length handling follows `readASN1` in
cryptobyte's `asn1.go`: short form below 0x80, long form with 1..4
length bytes, minimal-encoding checks, and a uint32 overflow check. -/

/-- Big-endian base-256 value of a byte list (cryptobyte `readUnsigned`). -/
def bytesToNatBE (bs : List Nat) : Nat :=
  bs.foldl (fun acc b => acc * 256 + b) 0

/-- Read one ASN.1 element with the given tag byte; returns
`(content, rest)` or `none` on a parse failure. -/
def readASN1 (s : List Nat) (tag : Nat) : Option (List Nat × List Nat) :=
  match s with
  | t :: l :: rest =>
    if t % 32 = 31 then none          -- multi-byte tags unsupported
    else if t ≠ tag then none
    else if l < 128 then
      if rest.length < l then none
      else some (rest.take l, rest.drop l)
    else
      let lenLen := l % 128
      if lenLen = 0 ∨ 4 < lenLen then none
      else if rest.length < lenLen then none
      else
        let len32 := bytesToNatBE (rest.take lenLen)
        if len32 < 128 then none      -- should have used short form
        else if len32 / 256 ^ (lenLen - 1) = 0 then none  -- leading zero byte
        else if 2 ^ 32 ≤ 2 + lenLen + len32 then none     -- uint32 overflow
        else
          let body := rest.drop lenLen
          if body.length < len32 then none
          else some (body.take len32, body.drop len32)
  | _ => none

/-- The ASN.1 tag byte of a constructed SEQUENCE. -/
def sequenceTag : Nat := 48

/-- The `extractTBSCertBytes` from `tbsCertIsDeterministic` in `ca/ca.go`:
read the outer Certificate SEQUENCE, then the inner TBSCertificate
SEQUENCE, and return the latter's octets; an empty TBS is an error. -/
def extractTBSCertBytes (inputDERBytes : List Nat) : Except String (List Nat) :=
  match readASN1 inputDERBytes sequenceTag with
  | none => .error "malformed certificate"
  | some (cert, _) =>
    match readASN1 cert sequenceTag with
    | none => .error "malformed tbs certificate"
    | some (tbs, _) =>
      if tbs = [] then .error "parsed RawTBSCertificate field was empty"
      else .ok tbs

/-- The `tbsCertIsDeterministic` from `ca/ca.go`: nil/empty inputs are an
error; extract both TBS byte strings; compare byte-for-byte. -/
def tbsCertIsDeterministic (lintCertBytes leafCertBytes : List Nat) : Except String Unit :=
  if lintCertBytes = [] ∨ leafCertBytes = [] then
    .error "lintCertBytes of leafCertBytes were nil"
  else
    match extractTBSCertBytes lintCertBytes with
    | .error e => .error ("while extracting lint TBS cert: " ++ e)
    | .ok lintRawTBSCert =>
      match extractTBSCertBytes leafCertBytes with
      | .error e => .error ("while extracting leaf TBS cert: " ++ e)
      | .ok leafRawTBSCert =>
        if lintRawTBSCert = leafRawTBSCert then .ok ()
        else .error "mismatch between lintCert and leafCert RawTBSCertificate DER bytes"

theorem extractTBSCertBytes_ok_ne_nil {x t : List Nat}
    (h : extractTBSCertBytes x = .ok t) : t ≠ [] := by
  unfold extractTBSCertBytes at h
  split at h
  · exact absurd h (by simp)
  · split at h
    · exact absurd h (by simp)
    · split at h
      · exact absurd h (by simp)
      · rename_i htbs
        injection h with h
        subst h
        exact htbs

/-- C1: `tbsCertIsDeterministic(lintDER, signedDER)` returns nil exactly
when both inputs are non-empty, each parses as an outer ASN.1 SEQUENCE
containing an inner SEQUENCE whose octets are non-empty (this is what
`extractTBSCertBytes` succeeding means), and the two inner TBSCertificate
octet strings are byte-for-byte equal; a nil/empty input, any parse
failure, an empty inner TBS, or a byte mismatch each yield an error. -/
theorem tbsCertIsDeterministic_ok_iff (lintDER signedDER : List Nat) :
    tbsCertIsDeterministic lintDER signedDER = .ok () ↔
      lintDER ≠ [] ∧ signedDER ≠ [] ∧
      ∃ tbs, extractTBSCertBytes lintDER = .ok tbs ∧
        extractTBSCertBytes signedDER = .ok tbs ∧ tbs ≠ [] := by
  by_cases h1 : lintDER = []
  · simp [tbsCertIsDeterministic, h1]
  by_cases h2 : signedDER = []
  · simp [tbsCertIsDeterministic, h1, h2]
  cases hl : extractTBSCertBytes lintDER with
  | error e => simp [tbsCertIsDeterministic, h1, h2, hl]
  | ok t1 =>
    cases hs : extractTBSCertBytes signedDER with
    | error e => simp [tbsCertIsDeterministic, h1, h2, hl, hs]
    | ok t2 =>
      by_cases heq : t1 = t2
      · subst heq
        simp [tbsCertIsDeterministic, h1, h2, hl, hs,
          extractTBSCertBytes_ok_ne_nil hl]
      · simp only [tbsCertIsDeterministic, h1, h2, or_self, if_false, hl, hs,
          if_neg heq]
        constructor
        · intro h; exact absurd h (by simp)
        · rintro ⟨-, -, tbs, hl', hs', -⟩
          injection hl' with hl'
          injection hs' with hs'
          exact absurd (hl'.trans hs'.symm) heq

/-! ### Go errors

Boulder wraps errors with `berrors` types; `fmt.Errorf` / `errors.New`
produce untyped ("plain") errors.  We record the kind together with the
message text the code formats. -/

/-- The error classes the CA code produces. `plain` is an untyped Go
error from `fmt.Errorf` or `errors.New`. -/
inductive ErrKind where
  | internalServerError
  | notFound
  | malformed
  | plain
  deriving DecidableEq, Repr

/-- A Go error value: kind plus formatted message. -/
structure GoError where
  kind : ErrKind
  msg : String
  deriving DecidableEq, Repr

/-! ### Serial number generation (`generateSerialNumber`, `ca/ca.go`)

`big.Int.SetBytes` interprets a byte slice as a big-endian unsigned
integer; `big.Int.Bytes` returns the minimal big-endian representation
(no leading zero bytes). -/

/-- The `big.Int.SetBytes`: big-endian byte list to natural number. -/
def setBytesBE (bs : List Nat) : Nat :=
  Nat.ofDigits 256 bs.reverse

/-- The `big.Int.Bytes`: minimal big-endian byte representation. -/
def natToBytesBE (n : Nat) : List Nat :=
  (Nat.digits 256 n).reverse

/-- The `const randBits = 136` in `generateSerialNumber`. -/
def randBits : Nat := 136

/-- The `generateSerialNumber` from `ca/ca.go`: a buffer of
`randBits/8 + 1 = 18` bytes holding the configured one-byte serial
prefix followed by `randBits/8 = 17` random bytes, read big-endian.
`randOk` is the outcome of `rand.Read`; `randomBytes` are the bytes it
drew into `serialBytes[1:]` (so the environment supplies
`randBits/8 = 17` of them). -/
def generateSerialNumber (serialPrefix : Nat) (randOk : Bool)
    (randomBytes : List Nat) : Except GoError Nat :=
  if randOk then
    .ok (setBytesBE (serialPrefix :: randomBytes))
  else
    .error ⟨.internalServerError, "failed to generate serial"⟩

/-- The startup validation in `NewCertificateAuthorityImpl`:
`serialPrefix < 0x01 || serialPrefix > 0x7f` is rejected. -/
def serialPrefixAccepted (serialPrefix : Nat) : Bool :=
  !(serialPrefix < 1 || 127 < serialPrefix)

theorem natToBytesBE_setBytesBE (bs : List Nat) (hne : bs ≠ [])
    (hhead : bs.head hne ≠ 0) (hlt : ∀ b ∈ bs, b < 256) :
    natToBytesBE (setBytesBE bs) = bs := by
  unfold natToBytesBE setBytesBE
  rw [Nat.digits_ofDigits 256 (by norm_num) bs.reverse
    (by intro l hl; exact hlt l (List.mem_reverse.mp hl))
    (by
      intro h
      rw [List.getLast_reverse]
      exact hhead)]
  exact List.reverse_reverse bs

/-- C4 (amended): for every serial produced by `generateSerialNumber`
with a prefix accepted by `NewCertificateAuthorityImpl` (`0x01..0x7F`)
and the `randBits/8 = 17` random bytes `rand.Read` fills (not 16 as the
claim states — `randBits = 136` so the buffer is 18 bytes, giving the
claimed ≥136 bits of randomness), the big-endian byte representation of
the serial is exactly the 18 bytes prefix‖random: length 18, byte 0 the
prefix with its high bit clear (so the integer is positive), bytes
1..17 the drawn random bytes. -/
theorem generateSerialNumber_shape (p : Nat) (rnd : List Nat)
    (hacc : serialPrefixAccepted p = true)
    (hlen : rnd.length = randBits / 8) (hbytes : ∀ b ∈ rnd, b < 256) :
    ∃ s, generateSerialNumber p true rnd = .ok s ∧
      natToBytesBE s = p :: rnd ∧
      (natToBytesBE s).length = 18 ∧
      (natToBytesBE s).head? = some p ∧
      p < 128 ∧ 0 < s := by
  have hp : 1 ≤ p ∧ p ≤ 127 := by
    simp only [serialPrefixAccepted, Bool.not_eq_true', Bool.or_eq_false_iff,
      decide_eq_false_iff_not] at hacc
    omega
  refine ⟨setBytesBE (p :: rnd), rfl, ?_⟩
  have hrep : natToBytesBE (setBytesBE (p :: rnd)) = p :: rnd := by
    refine natToBytesBE_setBytesBE (p :: rnd) (by simp) ?_ ?_
    · simp only [List.head_cons]
      omega
    · intro b hb
      rcases List.mem_cons.mp hb with rfl | hb
      · omega
      · exact hbytes b hb
  refine ⟨hrep, ?_, ?_, by omega, ?_⟩
  · rw [hrep]
    simp only [List.length_cons, hlen]
    rfl
  · rw [hrep]; rfl
  · rcases Nat.eq_zero_or_pos (setBytesBE (p :: rnd)) with hz | hpos
    · exfalso
      rw [hz] at hrep
      simp [natToBytesBE] at hrep
    · exact hpos

/-- Witness for the amended C4 at prefix `0x7f` and 17 zero random
bytes. -/
theorem generateSerialNumber_shape_witness :
    ∃ s, generateSerialNumber 127 true (List.replicate 17 0) = .ok s ∧
      natToBytesBE s = 127 :: List.replicate 17 0 ∧
      (natToBytesBE s).length = 18 ∧
      (natToBytesBE s).head? = some 127 ∧
      127 < 128 ∧ 0 < s :=
  generateSerialNumber_shape 127 (List.replicate 17 0) (by decide) (by decide)
    (by intro b hb; rcases List.eq_of_mem_replicate hb with rfl; decide)

/-- Counterexample for C4 as stated: with the 17 random bytes the code
draws (`randBits/8` with `randBits = 136`), the serial's byte
representation has 18 bytes, not 17, and carries 17 random bytes, not
16. -/
theorem generateSerialNumber_shape_counterexample :
    generateSerialNumber 127 true (List.replicate 17 5) =
      .ok (setBytesBE (127 :: List.replicate 17 5)) ∧
    (natToBytesBE (setBytesBE (127 :: List.replicate 17 5))).length = 18 := by
  refine ⟨rfl, ?_⟩
  rw [natToBytesBE_setBytesBE (127 :: List.replicate 17 5) (by simp)
    (by simp) ?_]
  · simp
  · intro b hb
    rcases List.mem_cons.mp hb with rfl | hb
    · omega
    · have := List.eq_of_mem_replicate hb
      omega

/-! ### The `identifier` package (`src/unnamed/part_002`)

Go strings are modelled as `List Char`; Go's `<` on strings is
byte-wise lexicographic comparison of the UTF-8 encodings, which agrees
with the codepoint-lexicographic order on `List Char` (UTF-8 preserves
codepoint order); `strings.ToLower` is modelled per-character (exact
for the ASCII values DNS names and textual IP addresses consist of). -/

/-- The `IdentifierType`, restricted to the two registered ACME identifier
types declared in the package (`TypeDNS = "dns"`, `TypeIP = "ip"`). -/
inductive IdentifierType where
  | dns
  | ip
  deriving DecidableEq, Repr

/-- The `ACMEIdentifier`: the Go field `Type` is called `idType` here
(`Type` is not a usable field name in Lean). -/
structure ACMEIdentifier where
  idType : IdentifierType
  value : List Char
  deriving DecidableEq, Repr

/-- The `NewDNS`: an identifier of type "dns" for a domain name. -/
def NewDNS (domain : List Char) : ACMEIdentifier := ⟨.dns, domain⟩

/-- The `strings.ToLower` on an ASCII value. -/
def toLowerValue (s : List Char) : List Char := s.map Char.toLower

/-- The in-place lowercasing loop at the top of `Normalize`. -/
def lowerIdent (i : ACMEIdentifier) : ACMEIdentifier :=
  ⟨i.idType, toLowerValue i.value⟩

/-- The comparison function passed to `slices.SortFunc` in `Normalize`. -/
def cmpIdent (a b : ACMEIdentifier) : Int :=
  if a.idType = b.idType then
    if a.value = b.value then 0
    else if a.value < b.value then -1
    else 1
  else if a.idType = .dns ∧ b.idType = .ip then -1
  else 1

/-- "a sorts no later than b" under `cmpIdent`. -/
def identLe (a b : ACMEIdentifier) : Prop := cmpIdent a b ≤ 0

instance : DecidableRel identLe := fun a b => by
  unfold identLe; infer_instance

/-- "a sorts strictly before b" under `cmpIdent`. -/
def identLt (a b : ACMEIdentifier) : Prop := cmpIdent a b < 0

instance : DecidableRel identLt := fun a b => by
  unfold identLt; infer_instance

/-- DNS identifiers rank before IP identifiers. -/
def typeRank : IdentifierType → Nat
  | .dns => 0
  | .ip => 1

theorem cmpIdent_le_zero_iff (a b : ACMEIdentifier) :
    cmpIdent a b ≤ 0 ↔
      typeRank a.idType < typeRank b.idType ∨
        (a.idType = b.idType ∧ (a.value = b.value ∨ a.value < b.value)) := by
  obtain ⟨ta, va⟩ := a
  obtain ⟨tb, vb⟩ := b
  cases ta <;> cases tb <;>
    rcases lt_trichotomy va vb with h | h | h <;>
      simp [cmpIdent, typeRank, h, ne_of_lt, ne_of_gt, not_lt_of_gt]

theorem cmpIdent_lt_zero_iff (a b : ACMEIdentifier) :
    cmpIdent a b < 0 ↔
      typeRank a.idType < typeRank b.idType ∨
        (a.idType = b.idType ∧ a.value < b.value) := by
  obtain ⟨ta, va⟩ := a
  obtain ⟨tb, vb⟩ := b
  cases ta <;> cases tb <;>
    rcases lt_trichotomy va vb with h | h | h <;>
      simp [cmpIdent, typeRank, h, ne_of_lt, ne_of_gt, not_lt_of_gt]

theorem cmpIdent_eq_zero_iff (a b : ACMEIdentifier) :
    cmpIdent a b = 0 ↔ a = b := by
  obtain ⟨ta, va⟩ := a
  obtain ⟨tb, vb⟩ := b
  cases ta <;> cases tb <;>
    rcases lt_trichotomy va vb with h | h | h <;>
      simp [cmpIdent, h, ne_of_lt, ne_of_gt, not_lt_of_gt]

instance : IsTotal ACMEIdentifier identLe where
  total a b := by
    unfold identLe
    rw [cmpIdent_le_zero_iff, cmpIdent_le_zero_iff]
    rcases lt_trichotomy (typeRank a.idType) (typeRank b.idType) with h | h | h
    · exact Or.inl (Or.inl h)
    · have ht : a.idType = b.idType := by
        cases ha : a.idType <;> cases hb : b.idType <;>
          simp_all [typeRank]
      rcases lt_trichotomy a.value b.value with hv | hv | hv
      · exact Or.inl (Or.inr ⟨ht, Or.inr hv⟩)
      · exact Or.inl (Or.inr ⟨ht, Or.inl hv⟩)
      · exact Or.inr (Or.inr ⟨ht.symm, Or.inr hv⟩)
    · exact Or.inr (Or.inl h)

instance : IsTrans ACMEIdentifier identLe where
  trans a b c hab hbc := by
    unfold identLe at *
    rw [cmpIdent_le_zero_iff] at *
    rcases hab with h1 | ⟨ht1, hv1⟩
    · rcases hbc with h2 | ⟨ht2, hv2⟩
      · exact Or.inl (lt_trans h1 h2)
      · exact Or.inl (ht2 ▸ h1)
    · rcases hbc with h2 | ⟨ht2, hv2⟩
      · exact Or.inl (ht1 ▸ h2)
      · refine Or.inr ⟨ht1.trans ht2, ?_⟩
        rcases hv1 with hv1 | hv1
        · rw [hv1]; exact hv2
        · rcases hv2 with hv2 | hv2
          · rw [← hv2]; exact Or.inr hv1
          · exact Or.inr (lt_trans hv1 hv2)

instance : IsAntisymm ACMEIdentifier identLe where
  antisymm a b hab hba := by
    unfold identLe at hab hba
    rw [cmpIdent_le_zero_iff] at hab hba
    obtain ⟨ta, va⟩ := a
    obtain ⟨tb, vb⟩ := b
    simp only [ACMEIdentifier.mk.injEq]
    simp only at hab hba
    rcases hab with h1 | ⟨ht1, hv1⟩
    · rcases hba with h2 | ⟨ht2, hv2⟩
      · exact absurd h2 (not_lt_of_gt h1)
      · exact absurd h1 (by rw [ht2]; exact lt_irrefl _)
    · rcases hba with h2 | ⟨ht2, hv2⟩
      · exact absurd h2 (by rw [ht1]; exact lt_irrefl _)
      · refine ⟨ht1, ?_⟩
        rcases hv1 with hv1 | hv1
        · exact hv1
        · rcases hv2 with hv2 | hv2
          · exact hv2.symm
          · exact absurd hv2 (not_lt_of_gt hv1)

theorem identLt_iff (a b : ACMEIdentifier) :
    identLt a b ↔ identLe a b ∧ a ≠ b := by
  unfold identLt identLe
  constructor
  · intro h
    refine ⟨le_of_lt h, fun he => ?_⟩
    rw [← cmpIdent_eq_zero_iff] at he
    omega
  · rintro ⟨h1, h2⟩
    rcases lt_or_eq_of_le h1 with h | h
    · exact h
    · exact absurd ((cmpIdent_eq_zero_iff a b).mp h) h2

instance : IsTrans ACMEIdentifier identLt where
  trans a b c hab hbc := by
    rw [identLt_iff] at *
    obtain ⟨hab, hne1⟩ := hab
    obtain ⟨hbc, hne2⟩ := hbc
    refine ⟨Trans.trans hab hbc, ?_⟩
    rintro rfl
    exact hne1 (antisymm hab hbc)

/-- The `compactTail prev l`: the tail `slices.Compact` keeps after having
just kept `prev`. -/
def compactTail {α : Type} [DecidableEq α] (prev : α) : List α → List α
  | [] => []
  | b :: t => if prev = b then compactTail prev t else b :: compactTail b t

/-- The `slices.Compact`: replace each run of equal consecutive elements by
its first element. -/
def slicesCompact {α : Type} [DecidableEq α] : List α → List α
  | [] => []
  | a :: t => a :: compactTail a t

/-- The `Normalize` from the identifier package: lowercase every value in
place, sort with the `cmpIdent` comparator (`slices.SortFunc`; since
`cmpIdent a b = 0` holds exactly when `a = b`, every correctly sorted
rearrangement is the same list, so the unstable sort is modelled by
insertion sort), then drop consecutive duplicates (`slices.Compact`). -/
def Normalize (idents : List ACMEIdentifier) : List ACMEIdentifier :=
  slicesCompact (List.insertionSort identLe (idents.map lowerIdent))

theorem mem_cons_compactTail {α : Type} [DecidableEq α] (prev : α)
    (l : List α) (x : α) : x ∈ prev :: compactTail prev l ↔ x ∈ prev :: l := by
  induction l generalizing prev with
  | nil => rfl
  | cons b t ih =>
    unfold compactTail
    by_cases hpb : prev = b
    · subst hpb
      rw [if_pos rfl]
      rw [ih prev]
      simp
    · rw [if_neg hpb]
      constructor
      · intro h
        rcases List.mem_cons.mp h with rfl | h
        · exact List.mem_cons_self _ _
        · rcases List.mem_cons.mp ((ih b).mp h) with rfl | h
          · simp
          · simp [h]
      · intro h
        rcases List.mem_cons.mp h with rfl | h
        · exact List.mem_cons_self _ _
        · exact List.mem_cons_of_mem _ ((ih b).mpr h)

theorem mem_slicesCompact {α : Type} [DecidableEq α] (l : List α) (x : α) :
    x ∈ slicesCompact l ↔ x ∈ l := by
  cases l with
  | nil => rfl
  | cons a t => exact mem_cons_compactTail a t x

theorem chain_compactTail {α : Type} [DecidableEq α] {r s : α → α → Prop}
    (hrs : ∀ a b, r a b → a ≠ b → s a b) :
    ∀ (prev : α) (l : List α), List.Chain r prev l →
      List.Chain s prev (compactTail prev l)
  | _, [], _ => .nil
  | prev, b :: t, h => by
    rw [List.chain_cons] at h
    obtain ⟨h1, h2⟩ := h
    unfold compactTail
    by_cases hpb : prev = b
    · rw [if_pos hpb]
      exact chain_compactTail hrs prev t (hpb ▸ h2)
    · rw [if_neg hpb]
      exact List.Chain.cons (hrs _ _ h1 hpb) (chain_compactTail hrs b t h2)

theorem pairwise_lt_slicesCompact {l : List ACMEIdentifier}
    (h : List.Sorted identLe l) : List.Pairwise identLt (slicesCompact l) := by
  cases l with
  | nil => exact .nil
  | cons a t =>
    rw [← List.chain'_iff_pairwise]
    have hc : List.Chain identLe a t := by
      have := h.chain'
      exact this
    exact chain_compactTail (fun x y hxy hne => (identLt_iff x y).mpr ⟨hxy, hne⟩)
      a t hc

theorem compactTail_of_chain_ne {α : Type} [DecidableEq α] :
    ∀ (prev : α) (l : List α), List.Chain (· ≠ ·) prev l →
      compactTail prev l = l
  | _, [], _ => rfl
  | prev, b :: t, h => by
    rw [List.chain_cons] at h
    obtain ⟨h1, h2⟩ := h
    unfold compactTail
    rw [if_neg h1, compactTail_of_chain_ne b t h2]

theorem slicesCompact_of_pairwise_ne {α : Type} [DecidableEq α]
    {l : List α} (h : List.Pairwise (· ≠ ·) l) : slicesCompact l = l := by
  cases l with
  | nil => rfl
  | cons a t =>
    have hc : List.Chain (· ≠ ·) a t := h.chain'
    show a :: compactTail a t = a :: t
    rw [compactTail_of_chain_ne a t hc]

theorem charToNat_ofNat {n : Nat} (h : n.isValidChar) :
    (Char.ofNat n).toNat = n := by
  unfold Char.ofNat
  rw [dif_pos h]
  unfold Char.ofNatAux Char.toNat
  simp [UInt32.toNat, UInt32.ofNat']

theorem char_toLower_idem (c : Char) : c.toLower.toLower = c.toLower := by
  unfold Char.toLower
  by_cases h : c.toNat ≥ 65 ∧ c.toNat ≤ 90
  · rw [if_pos h]
    have hv : (c.toNat + 32).isValidChar := by
      left
      omega
    rw [if_neg]
    rw [charToNat_ofNat hv]
    omega
  · rw [if_neg h, if_neg h]

theorem lowerIdent_idem (a : ACMEIdentifier) :
    lowerIdent (lowerIdent a) = lowerIdent a := by
  unfold lowerIdent toLowerValue
  simp only [List.map_map, ACMEIdentifier.mk.injEq, true_and]
  exact List.map_congr_left (fun c _ => char_toLower_idem c)

theorem mem_Normalize (xs : List ACMEIdentifier) (a : ACMEIdentifier) :
    a ∈ Normalize xs ↔ a ∈ xs.map lowerIdent := by
  unfold Normalize
  rw [mem_slicesCompact, List.mem_insertionSort]

theorem identLt_iff_claim (a b : ACMEIdentifier) :
    identLt a b ↔
      (a.idType = .dns ∧ b.idType = .ip) ∨
        (a.idType = b.idType ∧ a.value < b.value) := by
  unfold identLt
  rw [cmpIdent_lt_zero_iff]
  obtain ⟨ta, va⟩ := a
  obtain ⟨tb, vb⟩ := b
  cases ta <;> cases tb <;> simp [typeRank]

/-- C10: `Normalize` returns exactly the unique identifiers of its
input with all values lowercased (membership in the output is
membership in the lowercased input), sorted so that every DNS-type
identifier precedes every IP-type identifier and identifiers of the
same type are ordered by value, with no duplicate (type, value) pair in
the output; consequently `Normalize` is idempotent. -/
theorem Normalize_spec (xs : List ACMEIdentifier) :
    (∀ a, a ∈ Normalize xs ↔ a ∈ xs.map lowerIdent) ∧
    List.Pairwise (fun a b =>
      (a.idType = .dns ∧ b.idType = .ip) ∨
        (a.idType = b.idType ∧ a.value < b.value)) (Normalize xs) ∧
    (Normalize xs).Nodup ∧
    Normalize (Normalize xs) = Normalize xs := by
  have hsorted : List.Sorted identLe (List.insertionSort identLe (xs.map lowerIdent)) :=
    List.sorted_insertionSort identLe (xs.map lowerIdent)
  have hpl : List.Pairwise identLt (Normalize xs) :=
    pairwise_lt_slicesCompact hsorted
  have hmem : ∀ a, a ∈ Normalize xs ↔ a ∈ xs.map lowerIdent :=
    fun a => mem_Normalize xs a
  have hnodup : (Normalize xs).Nodup :=
    hpl.imp (fun h => ((identLt_iff _ _).mp h).2)
  refine ⟨hmem, hpl.imp (fun h => (identLt_iff_claim _ _).mp h), hnodup, ?_⟩
  have hlower : ∀ a ∈ Normalize xs, lowerIdent a = a := by
    intro a ha
    rcases List.mem_map.mp ((hmem a).mp ha) with ⟨y, -, hy⟩
    rw [← hy, lowerIdent_idem]
  have hmap : (Normalize xs).map lowerIdent = Normalize xs :=
    (List.map_congr_left hlower).trans (List.map_id _)
  have hsorted2 : List.Sorted identLe (Normalize xs) :=
    hpl.imp (fun h => ((identLt_iff _ _).mp h).1)
  show slicesCompact (List.insertionSort identLe ((Normalize xs).map lowerIdent)) =
    Normalize xs
  rw [hmap, hsorted2.insertionSort_eq]
  exact slicesCompact_of_pairwise_ne hnodup

/-! ### Issuers and `makeIssuerMaps` (`ca/ca.go`) -/

/-- The `x509.PublicKeyAlgorithm` (the named constants). -/
inductive Alg where
  | RSA
  | DSA
  | ECDSA
  | Ed25519
  deriving DecidableEq, Repr

/-- The `Alg.String()` from `crypto/x509`. -/
def algString : Alg → String
  | .RSA => "RSA"
  | .DSA => "DSA"
  | .ECDSA => "ECDSA"
  | .Ed25519 => "Ed25519"

/-- The attributes of an `issuance.Issuer` the CA core reads. -/
structure Issuer where
  name : String
  nameID : Nat
  keyType : Alg
  isActive : Bool
  certNotAfter : Nat
  deriving DecidableEq, Repr

/-- The `issuerMaps` from `ca/ca.go`: the Go map `byNameID` is modelled as
an association list with unique keys, the Go map `byAlg` as a total
function defaulting to `[]` (absent key and empty slice coincide, as in
the Go nil-slice semantics the code relies on). -/
structure IssuerMaps where
  byAlg : Alg → List Issuer
  byNameID : List (Nat × Issuer)

/-- The `for` loop of `makeIssuerMaps`: walk the configured issuers,
reject NameID collisions, index every issuer by NameID, and append each
active issuer to its key-type pool. -/
def makeIssuerMapsLoop : List Issuer → List (Nat × Issuer) → (Alg → List Issuer) →
    Except GoError (List (Nat × Issuer) × (Alg → List Issuer))
  | [], nm, byAlg => .ok (nm, byAlg)
  | issuer :: rest, nm, byAlg =>
    match nm.lookup issuer.nameID with
    | some _ => .error ⟨.plain, "two issuers with same NameID configured"⟩
    | none =>
      makeIssuerMapsLoop rest ((issuer.nameID, issuer) :: nm)
        (if issuer.isActive then
          Function.update byAlg issuer.keyType (byAlg issuer.keyType ++ [issuer])
        else byAlg)

/-- The `makeIssuerMaps` from `ca/ca.go`: after the loop, require at least
one active ECDSA issuer and at least one active RSA issuer. -/
def makeIssuerMaps (issuers : List Issuer) : Except GoError IssuerMaps :=
  match makeIssuerMapsLoop issuers [] (fun _ => []) with
  | .error e => .error e
  | .ok (nm, byAlg) =>
    if byAlg .ECDSA = [] then .error ⟨.plain, "no ECDSA issuers configured"⟩
    else if byAlg .RSA = [] then .error ⟨.plain, "no RSA issuers configured"⟩
    else .ok ⟨byAlg, nm⟩

theorem lookup_isSome_iff_mem (k : Nat) (nm : List (Nat × Issuer)) :
    (nm.lookup k).isSome ↔ k ∈ nm.map Prod.fst := by
  induction nm with
  | nil => simp
  | cons p t ih =>
    obtain ⟨k', v⟩ := p
    by_cases hk : k = k'
    · subst hk
      simp [List.lookup_cons]
    · have hbeq : (k == k') = false := by
        simp [hk]
      simp [List.lookup_cons, hbeq, hk, ih]

theorem makeIssuerMapsLoop_error_iff :
    ∀ (l : List Issuer) (nm : List (Nat × Issuer)) (byAlg : Alg → List Issuer),
      (nm.map Prod.fst).Nodup →
      ((∃ e, makeIssuerMapsLoop l nm byAlg = .error e) ↔
        ¬ (nm.map Prod.fst ++ l.map Issuer.nameID).Nodup)
  | [], nm, byAlg, hinv => by
    simp [makeIssuerMapsLoop, hinv]
  | issuer :: rest, nm, byAlg, hinv => by
    have hperm := (@List.perm_middle _ issuer.nameID (nm.map Prod.fst)
      (rest.map Issuer.nameID)).nodup_iff
    cases hl : nm.lookup issuer.nameID with
    | some v =>
      have hmem : issuer.nameID ∈ nm.map Prod.fst := by
        rw [← lookup_isSome_iff_mem, hl]
        rfl
      simp only [makeIssuerMapsLoop, hl, List.map_cons]
      constructor
      · intro _ hnd
        rw [hperm, List.nodup_cons] at hnd
        exact hnd.1 (List.mem_append_left _ hmem)
      · intro _
        exact ⟨_, rfl⟩
    | none =>
      have hnotmem : issuer.nameID ∉ nm.map Prod.fst := by
        rw [← lookup_isSome_iff_mem, hl]
        simp
      have hinv2 : (((issuer.nameID, issuer) :: nm).map Prod.fst).Nodup := by
        simp only [List.map_cons, List.nodup_cons]
        exact ⟨hnotmem, hinv⟩
      have ih := makeIssuerMapsLoop_error_iff rest ((issuer.nameID, issuer) :: nm)
        (if issuer.isActive then
          Function.update byAlg issuer.keyType (byAlg issuer.keyType ++ [issuer])
        else byAlg) hinv2
      simp only [makeIssuerMapsLoop, hl, List.map_cons]
      rw [ih]
      constructor
      · intro h hnd
        apply h
        rw [hperm] at hnd
        simpa using hnd
      · intro h hnd
        apply h
        rw [hperm]
        simpa using hnd

theorem makeIssuerMapsLoop_ok :
    ∀ (l : List Issuer) (nm : List (Nat × Issuer)) (byAlg : Alg → List Issuer)
      (nm' : List (Nat × Issuer)) (byAlg' : Alg → List Issuer),
      makeIssuerMapsLoop l nm byAlg = .ok (nm', byAlg') →
      (∀ k v, nm.lookup k = some v → nm'.lookup k = some v) ∧
      (∀ iss ∈ l, nm'.lookup iss.nameID = some iss) ∧
      (∀ a, byAlg' a = byAlg a ++ l.filter (fun i => i.isActive && i.keyType == a))
  | [], nm, byAlg, nm', byAlg', h => by
    simp only [makeIssuerMapsLoop, Except.ok.injEq, Prod.mk.injEq] at h
    obtain ⟨rfl, rfl⟩ := h
    simp
  | issuer :: rest, nm, byAlg, nm', byAlg', h => by
    simp only [makeIssuerMapsLoop] at h
    cases hl : nm.lookup issuer.nameID with
    | some v => rw [hl] at h; exact absurd h (by simp)
    | none =>
      rw [hl] at h
      have ih := makeIssuerMapsLoop_ok rest ((issuer.nameID, issuer) :: nm) _ nm' byAlg' h
      obtain ⟨hpres, hmem, halg⟩ := ih
      refine ⟨?_, ?_, ?_⟩
      · intro k v hkv
        apply hpres
        rw [List.lookup_cons]
        have hk : (k == issuer.nameID) = false := by
          by_contra hc
          have : k = issuer.nameID := by
            simpa using (Bool.not_eq_false _).mp hc
          rw [this, hl] at hkv
          cases hkv
        simp [hk, hkv]
      · intro iss hiss
        rcases List.mem_cons.mp hiss with rfl | hiss
        · apply hpres
          rw [List.lookup_cons]
          simp
        · exact hmem iss hiss
      · intro a
        rw [halg a, List.filter_cons]
        by_cases hact : issuer.isActive
        · by_cases hkt : issuer.keyType = a
          · simp [hact, hkt, Function.update_apply]
          · have : (issuer.keyType == a) = false := by simp [hkt]
            simp [hact, this, Function.update_apply, Ne.symm hkt, hkt]
        · have : issuer.isActive = false := by simpa using hact
          simp [this]

/-- C8: `makeIssuerMaps` returns an error exactly when two issuers
share a NameID, or there is no active ECDSA issuer, or no active RSA
issuer; on success `byNameID` maps every configured issuer (active or
not) from its NameID, and `byAlg` maps each public-key algorithm to
exactly the active issuers of that key type. -/
theorem makeIssuerMaps_spec (issuers : List Issuer) :
    ((∃ e, makeIssuerMaps issuers = .error e) ↔
      (¬ (issuers.map Issuer.nameID).Nodup ∨
        issuers.filter (fun i => i.isActive && i.keyType == Alg.ECDSA) = [] ∨
        issuers.filter (fun i => i.isActive && i.keyType == Alg.RSA) = [])) ∧
    (∀ m, makeIssuerMaps issuers = .ok m →
      (∀ iss ∈ issuers, m.byNameID.lookup iss.nameID = some iss) ∧
      (∀ a, m.byAlg a = issuers.filter (fun i => i.isActive && i.keyType == a))) := by
  have herr := makeIssuerMapsLoop_error_iff issuers [] (fun _ => []) (by simp)
  cases hloop : makeIssuerMapsLoop issuers [] (fun _ => []) with
  | error e =>
    have hne : ¬ (issuers.map Issuer.nameID).Nodup := by
      have := herr.mp ⟨e, hloop⟩
      simpa using this
    constructor
    · constructor
      · intro _
        exact Or.inl hne
      · intro _
        refine ⟨e, ?_⟩
        unfold makeIssuerMaps
        rw [hloop]
    · intro m hm
      unfold makeIssuerMaps at hm
      rw [hloop] at hm
      cases hm
  | ok p =>
    obtain ⟨nm, byAlg⟩ := p
    obtain ⟨hpres, hmem, halg⟩ :=
      makeIssuerMapsLoop_ok issuers [] (fun _ => []) nm byAlg hloop
    have hnodup : (issuers.map Issuer.nameID).Nodup := by
      by_contra hnd
      rcases herr.mpr (by simpa using hnd) with ⟨e, he⟩
      rw [hloop] at he
      cases he
    have halg' : ∀ a, byAlg a = issuers.filter (fun i => i.isActive && i.keyType == a) := by
      intro a
      simpa using halg a
    have hred : makeIssuerMaps issuers =
        (if byAlg Alg.ECDSA = [] then
          .error ⟨.plain, "no ECDSA issuers configured"⟩
        else if byAlg Alg.RSA = [] then
          .error ⟨.plain, "no RSA issuers configured"⟩
        else .ok ⟨byAlg, nm⟩) := by
      unfold makeIssuerMaps
      rw [hloop]
    by_cases hE : issuers.filter (fun i => i.isActive && i.keyType == Alg.ECDSA) = []
    · have hcond : byAlg Alg.ECDSA = [] := by rw [halg' Alg.ECDSA]; exact hE
      rw [hred, if_pos hcond]
      constructor
      · constructor
        · intro _
          exact Or.inr (Or.inl hE)
        · intro _
          exact ⟨_, rfl⟩
      · intro m hm
        cases hm
    · have hcond : ¬ byAlg Alg.ECDSA = [] := by rw [halg' Alg.ECDSA]; exact hE
      by_cases hR : issuers.filter (fun i => i.isActive && i.keyType == Alg.RSA) = []
      · have hcondR : byAlg Alg.RSA = [] := by rw [halg' Alg.RSA]; exact hR
        rw [hred, if_neg hcond, if_pos hcondR]
        constructor
        · constructor
          · intro _
            exact Or.inr (Or.inr hR)
          · intro _
            exact ⟨_, rfl⟩
        · intro m hm
          cases hm
      · have hcondR : ¬ byAlg Alg.RSA = [] := by rw [halg' Alg.RSA]; exact hR
        have hok : makeIssuerMaps issuers = .ok ⟨byAlg, nm⟩ := by
          rw [hred, if_neg hcond, if_neg hcondR]
        constructor
        · constructor
          · rintro ⟨e, he⟩
            rw [hok] at he
            cases he
          · intro h
            rcases h with h | h | h
            · exact absurd hnodup h
            · exact absurd h hE
            · exact absurd h hR
        · intro m hm
          rw [hok] at hm
          injection hm with hm
          subst hm
          exact ⟨hmem, halg'⟩

/-- A concrete active RSA issuer for witnesses. -/
def issuerRSA1 : Issuer := ⟨"int-rsa-a", 1, .RSA, true, 1000⟩

/-- A concrete active ECDSA issuer for witnesses. -/
def issuerECDSA1 : Issuer := ⟨"int-ecdsa-a", 2, .ECDSA, true, 1000⟩

/-- Witness for C8: on the two-issuer configuration above,
`makeIssuerMaps` succeeds and yields the expected indexes. -/
theorem makeIssuerMaps_spec_witness :
    (makeIssuerMaps [issuerRSA1, issuerECDSA1]).map
      (fun m => (m.byNameID.lookup 1, m.byNameID.lookup 2,
        m.byAlg .RSA, m.byAlg .ECDSA, m.byAlg .DSA)) =
      .ok (some issuerRSA1, some issuerECDSA1,
        [issuerRSA1], [issuerECDSA1], []) := by
  cases hm : makeIssuerMaps [issuerRSA1, issuerECDSA1] with
  | error e =>
    have h := (makeIssuerMaps_spec [issuerRSA1, issuerECDSA1]).1
    exact absurd (h.mp ⟨e, hm⟩) (by decide)
  | ok m =>
    have h := (makeIssuerMaps_spec [issuerRSA1, issuerECDSA1]).2 m hm
    have h1 := h.1 issuerRSA1 (by simp)
    have h2 := h.1 issuerECDSA1 (by simp)
    have hr := h.2 Alg.RSA
    have he := h.2 Alg.ECDSA
    have hd := h.2 Alg.DSA
    simp only [Except.map]
    rw [show issuerRSA1.nameID = 1 from rfl] at h1
    rw [show issuerECDSA1.nameID = 2 from rfl] at h2
    rw [h1, h2, hr, he, hd]
    rfl

/-! ### Extracting identifiers from a CSR (`src/unnamed/part_002`) -/

/-- The fields of a parsed `x509.CertificateRequest` the CA reads.  IP
addresses are carried in their textual `ip.String()` form. -/
structure CertificateRequest where
  publicKeyAlgorithm : Alg
  subjectCommonName : List Char
  dnsNames : List (List Char)
  ipAddresses : List (List Char)
  deriving DecidableEq, Repr

/-- The `fromX509`: DNS SANs, then — when the Subject CN is non-empty — the
CN appended as a DNS identifier, then IP SANs; deduplicated with
`Normalize`. -/
def fromX509 (commonName : List Char) (dnsNames : List (List Char))
    (ipAddresses : List (List Char)) : List ACMEIdentifier :=
  let sans := dnsNames.map NewDNS
  let sans := if commonName ≠ [] then sans ++ [NewDNS commonName] else sans
  let sans := sans ++ ipAddresses.map (fun ip => ⟨.ip, ip⟩)
  Normalize sans

/-- The `FromCSR`: extract the Subject Common Name and the Subject
Alternative Names from a CSR. -/
def FromCSR (csr : CertificateRequest) : List ACMEIdentifier :=
  fromX509 csr.subjectCommonName csr.dnsNames csr.ipAddresses

/-- Modelled from the spec: `ACMEIdentifiers.ToValues` is not among the
source files (only its caller in `issuePrecertificateInner` is); it
splits a list of identifiers into the DNS-name values and the
IP-address values placed in the issuance request.  For the two
registered identifier types it cannot fail. -/
def ToValues (idents : List ACMEIdentifier) :
    List (List Char) × List (List Char) :=
  (idents.filterMap (fun i => if i.idType = .dns then some i.value else none),
   idents.filterMap (fun i => if i.idType = .ip then some i.value else none))

/-- Modelled from the spec: `csrlib.CNFromCSR` ("extract optional CN
via the CSR helper") is not among the source files; it yields the CSR's
Subject Common Name. -/
def CNFromCSR (csr : CertificateRequest) : List Char :=
  csr.subjectCommonName

/-! ### The issuance pipeline (`ca/ca.go`)

The external collaborators are modelled by an `Oracle` holding the
outcome each outbound call would produce; every pipeline function
returns its Go result together with the ordered list of outbound calls
(`Event`s) it made, and — for the precertificate path — the number of
times the `lint_errors` counter was incremented. -/

/-- A certificate profile together with the validity window its
`GenerateValidity` (external issuance package) returns for this
request. -/
structure Profile where
  notBefore : Nat
  notAfter : Nat
  deriving DecidableEq, Repr

/-- The `certProfileWithID` from `ca/ca.go`. -/
structure certProfileWithID where
  name : String
  profile : Profile
  deriving DecidableEq, Repr

/-- The fields of `issuance.IssuanceRequest` built by the CA (the
opaque public-key handle is not modelled). -/
structure IssuanceRequest where
  subjectKeyId : List Nat
  serial : List Nat
  dnsNames : List (List Char)
  ipAddresses : List (List Char)
  commonName : List Char
  includeCTPoison : Bool
  notBefore : Nat
  notAfter : Nat
  deriving DecidableEq, Repr

/-- An error returned by `issuer.Prepare`; `isLint` records whether
`errors.Is(err, linter.ErrLinting)` holds. -/
structure PrepareErr where
  isLint : Bool
  msg : String
  deriving DecidableEq, Repr

/-- The fields of a parsed precertificate the final path reads. -/
structure Precert where
  serialNumber : Nat
  issuerNameID : Nat
  deriving DecidableEq, Repr

/-- Outcome of the Storage Authority `GetCertificate` duplicate check. -/
inductive GetCertOutcome where
  | found
  | notFound
  | otherErr (msg : String)
  deriving DecidableEq, Repr

/-- One outbound call of the CA, with the payload the claims inspect. -/
inductive Event where
  | addSerial
  | prepare (dnsNames : List (List Char))
  | addPrecertificate (der : List Nat)
  | issue
  | setCertificateStatusReady
  | getSCTs
  | getCertificate
  | addCertificate (der : List Nat)
  deriving DecidableEq, Repr

/-- The call a given event records, with payloads forgotten. -/
inductive EventTag where
  | addSerial
  | prepare
  | addPrecertificate
  | issue
  | setCertificateStatusReady
  | getSCTs
  | getCertificate
  | addCertificate
  deriving DecidableEq, Repr

def Event.tag : Event → EventTag
  | .addSerial => .addSerial
  | .prepare _ => .prepare
  | .addPrecertificate _ => .addPrecertificate
  | .issue => .issue
  | .setCertificateStatusReady => .setCertificateStatusReady
  | .getSCTs => .getSCTs
  | .getCertificate => .getCertificate
  | .addCertificate _ => .addCertificate

/-- The Storage Authority writes plus the HSM `Issue` call — the chain
C2 constrains. -/
def isChainEvent : Event → Bool
  | .addSerial => true
  | .addPrecertificate _ => true
  | .issue => true
  | .setCertificateStatusReady => true
  | .addCertificate _ => true
  | _ => false

/-- The chain-relevant calls of a trace, in order. -/
def chainTags (tr : List Event) : List EventTag :=
  (tr.filter isChainEvent).map Event.tag

/-- The outcomes the environment (SA, PA, HSM issuers, SCT provider,
randomness, parsers) would produce for one issuance. -/
structure Oracle where
  randOk : Bool
  randomBytes : List Nat
  addSerialRes : Except GoError Unit
  parseCSRRes : Except GoError CertificateRequest
  verifyCSRRes : Except GoError Unit
  issuerIndex : Nat
  skidRes : Except GoError (List Nat)
  prepareRes : Except PrepareErr (List Nat × Nat)
  addPrecertificateRes : Except GoError Unit
  issueRes : Except GoError (List Nat)
  setReadyRes : Except GoError Unit
  getSCTsRes : Except GoError (List (List Nat))
  parsePrecertRes : Except GoError Precert
  getCertificateRes : GetCertOutcome
  sctsUnmarshalOk : Bool
  requestFromPrecertRes : Except GoError IssuanceRequest
  prepareFinalRes : Except PrepareErr (List Nat × Nat)
  issueFinalRes : Except GoError (List Nat)
  addCertificateRes : Except GoError Unit

/-- The CA configuration fields the pipeline reads
(`certificateAuthorityImpl`).  The profile map holds the profiles by
name; `makeCertificateProfilesMap` stores each profile under its
name. -/
structure CAImpl where
  hasSctClient : Bool
  certProfiles : List (String × Profile)
  issuers : IssuerMaps
  serialPrefix : Nat

/-- The `core.SerialToString`: `fmt.Sprintf("%036x", serial)`. -/
def serialToString (n : Nat) : String :=
  let ds := Nat.toDigits 16 n
  ⟨List.replicate (36 - ds.length) '0' ++ ds⟩

/-- The `core.IsAnyNilOrZero(issueReq, issueReq.Csr, issueReq.RegistrationID,
issueReq.OrderID)`: any required field at its zero value. -/
structure IssueCertificateRequest where
  csr : List Nat
  registrationID : Int
  orderID : Int
  certProfileName : String
  deriving DecidableEq, Repr

def requestIncomplete (req : IssueCertificateRequest) : Bool :=
  req.csr.isEmpty || req.registrationID == 0 || req.orderID == 0

/-- The `issuerPool[mrand.IntN(len(issuerPool))]`: the uniformly random
index is modelled by the oracle's `issuerIndex`, reduced mod the pool
size; an empty pool yields none. -/
def chooseFromPool (pool : List Issuer) (idx : Nat) : Option Issuer :=
  match pool with
  | [] => none
  | a :: as => some ((a :: as).get ⟨idx % (a :: as).length, Nat.mod_lt _ (Nat.succ_pos _)⟩)

/-- The `issuePrecertificateInner` from `ca/ca.go`: parse the CSR, verify
it against key and name policy, pick a random active issuer of the
CSR's key algorithm, refuse to issue past the issuer's own expiry,
compute the SKID, build the `IssuanceRequest` from the CSR's SANs (via
`identifier.FromCSR(csr).ToValues()`) with the CT poison flag set,
`Prepare` (incrementing `lint_errors` when the failure is a linting
error), persist the lint DER with `AddPrecertificate`, `Issue`, and
check TBS determinism. -/
def issuePrecertificateInner (ca : CAImpl) (o : Oracle)
    (issueReq : IssueCertificateRequest) (certProfile : certProfileWithID)
    (serialBigInt : Nat) (notBefore notAfter : Nat) :
    Except GoError (List Nat) × List Event × Nat :=
  match o.parseCSRRes with
  | .error e => (.error e, [], 0)
  | .ok csr =>
    match o.verifyCSRRes with
    | .error e => (.error e, [], 0)
    | .ok _ =>
      let alg := csr.publicKeyAlgorithm
      match chooseFromPool (ca.issuers.byAlg alg) o.issuerIndex with
      | none =>
        (.error ⟨.internalServerError,
          "no issuers found for public key algorithm " ++ algString alg⟩, [], 0)
      | some issuer =>
        if issuer.certNotAfter < notAfter then
          (.error ⟨.internalServerError,
            "cannot issue a certificate that expires after the issuer certificate"⟩,
            [], 0)
        else
          match o.skidRes with
          | .error e =>
            (.error ⟨.plain, "computing subject key ID: " ++ e.msg⟩, [], 0)
          | .ok subjectKeyId =>
            let dnsNames := (ToValues (FromCSR csr)).1
            let ipAddresses := (ToValues (FromCSR csr)).2
            let req : IssuanceRequest :=
              { subjectKeyId := subjectKeyId
                serial := natToBytesBE serialBigInt
                dnsNames := dnsNames
                ipAddresses := ipAddresses
                commonName := CNFromCSR csr
                includeCTPoison := true
                notBefore := notBefore
                notAfter := notAfter }
            match o.prepareRes with
            | .error e =>
              (.error ⟨.internalServerError,
                "failed to prepare precertificate signing: " ++ e.msg⟩,
                [.prepare req.dnsNames], if e.isLint then 1 else 0)
            | .ok (lintCertBytes, _issuanceToken) =>
              match o.addPrecertificateRes with
              | .error e =>
                (.error e,
                  [.prepare req.dnsNames, .addPrecertificate lintCertBytes], 0)
              | .ok _ =>
                match o.issueRes with
                | .error e =>
                  (.error ⟨.internalServerError,
                    "failed to sign precertificate: " ++ e.msg⟩,
                    [.prepare req.dnsNames, .addPrecertificate lintCertBytes,
                      .issue], 0)
                | .ok certDER =>
                  match tbsCertIsDeterministic lintCertBytes certDER with
                  | .error e =>
                    (.error ⟨.plain, e⟩,
                      [.prepare req.dnsNames, .addPrecertificate lintCertBytes,
                        .issue], 0)
                  | .ok _ =>
                    (.ok certDER,
                      [.prepare req.dnsNames, .addPrecertificate lintCertBytes,
                        .issue], 0)

/-- The `issuePrecertificate` from `ca/ca.go`: generate a serial, compute
the validity window, `AddSerial`, run the inner issuance, then
`SetCertificateStatusReady`. -/
def issuePrecertificate (ca : CAImpl) (o : Oracle)
    (certProfile : certProfileWithID) (issueReq : IssueCertificateRequest) :
    Except GoError (List Nat) × List Event × Nat :=
  match generateSerialNumber ca.serialPrefix o.randOk o.randomBytes with
  | .error e => (.error e, [], 0)
  | .ok serialBigInt =>
    let notBefore := certProfile.profile.notBefore
    let notAfter := certProfile.profile.notAfter
    match o.addSerialRes with
    | .error e => (.error e, [.addSerial], 0)
    | .ok _ =>
      match issuePrecertificateInner ca o issueReq certProfile serialBigInt
        notBefore notAfter with
      | (.error e, tr, lint) => (.error e, .addSerial :: tr, lint)
      | (.ok precertDER, tr, lint) =>
        match o.setReadyRes with
        | .error e =>
          (.error e, .addSerial :: tr ++ [.setCertificateStatusReady], lint)
        | .ok _ =>
          (.ok precertDER, .addSerial :: tr ++ [.setCertificateStatusReady],
            lint)

/-- The `issueCertificateForPrecertificate` from `ca/ca.go`: parse the
precertificate, refuse when a final certificate already exists
(`GetCertificate`), unmarshal the SCTs, look the issuer up by NameID,
rebuild the issuance request from the precert, `Prepare`, `Issue`,
check TBS determinism, and persist the final DER with
`AddCertificate`. -/
def issueCertificateForPrecertificate (ca : CAImpl) (o : Oracle)
    (certProfile : certProfileWithID) (precertDER : List Nat)
    (sctBytes : List (List Nat)) (regID orderID : Int) :
    Except GoError (List Nat) × List Event :=
  match o.parsePrecertRes with
  | .error e => (.error e, [])
  | .ok precert =>
    let serialHex := serialToString precert.serialNumber
    match o.getCertificateRes with
    | .found =>
      (.error ⟨.internalServerError,
        "issuance of duplicate final certificate requested: " ++ serialHex⟩,
        [.getCertificate])
    | .otherErr msg =>
      (.error ⟨.plain,
        "error checking for duplicate issuance of " ++ serialHex ++ ": " ++ msg⟩,
        [.getCertificate])
    | .notFound =>
      if !o.sctsUnmarshalOk then
        (.error ⟨.plain, "sct unmarshal failed"⟩, [.getCertificate])
      else
        match ca.issuers.byNameID.lookup precert.issuerNameID with
        | none =>
          (.error ⟨.internalServerError, "no issuer found for Issuer Name"⟩,
            [.getCertificate])
        | some _issuer =>
          match o.requestFromPrecertRes with
          | .error e => (.error e, [.getCertificate])
          | .ok issuanceReq =>
            match o.prepareFinalRes with
            | .error e =>
              (.error ⟨.internalServerError,
                "failed to prepare certificate signing: " ++ e.msg⟩,
                [.getCertificate, .prepare issuanceReq.dnsNames])
            | .ok (lintCertBytes, _issuanceToken) =>
              match o.issueFinalRes with
              | .error e =>
                (.error ⟨.internalServerError,
                  "failed to sign certificate: " ++ e.msg⟩,
                  [.getCertificate, .prepare issuanceReq.dnsNames, .issue])
              | .ok certDER =>
                match tbsCertIsDeterministic lintCertBytes certDER with
                | .error e =>
                  (.error ⟨.plain, e⟩,
                    [.getCertificate, .prepare issuanceReq.dnsNames, .issue])
                | .ok _ =>
                  match o.addCertificateRes with
                  | .error e =>
                    (.error e,
                      [.getCertificate, .prepare issuanceReq.dnsNames, .issue,
                        .addCertificate certDER])
                  | .ok _ =>
                    (.ok certDER,
                      [.getCertificate, .prepare issuanceReq.dnsNames, .issue,
                        .addCertificate certDER])

/-- The `IssueCertificate` from `ca/ca.go`: shape-check the request,
require an SCT service, look up the profile, issue the precertificate,
fetch SCTs, and issue the final certificate. -/
def IssueCertificate (ca : CAImpl) (o : Oracle)
    (issueReq : IssueCertificateRequest) :
    Except GoError (List Nat) × List Event × Nat :=
  if requestIncomplete issueReq then
    (.error ⟨.internalServerError, "Incomplete issue certificate request"⟩,
      [], 0)
  else if !ca.hasSctClient then
    (.error ⟨.plain, "IssueCertificate called with a nil SCT service"⟩, [], 0)
  else
    match ca.certProfiles.lookup issueReq.certProfileName with
    | none =>
      (.error ⟨.plain,
        "the CA is incapable of using a profile named " ++
          issueReq.certProfileName⟩, [], 0)
    | some profile =>
      let certProfile : certProfileWithID := ⟨issueReq.certProfileName, profile⟩
      match issuePrecertificate ca o certProfile issueReq with
      | (.error e, tr, lint) => (.error e, tr, lint)
      | (.ok precertDER, tr, lint) =>
        match o.getSCTsRes with
        | .error e => (.error e, tr ++ [.getSCTs], lint)
        | .ok scts =>
          match issueCertificateForPrecertificate ca o certProfile precertDER
            scts issueReq.registrationID issueReq.orderID with
          | (.error e, tr2) => (.error e, tr ++ [.getSCTs] ++ tr2, lint)
          | (.ok certDER, tr2) => (.ok certDER, tr ++ [.getSCTs] ++ tr2, lint)

/-! ### Concrete fixtures for witnesses and counterexamples -/

/-- A minimal DER certificate shape accepted by the TBS extractor:
outer SEQUENCE of length 3 holding an inner SEQUENCE of length 1. -/
def lintDER0 : List Nat := [48, 3, 48, 1, 170]

/-- A CSR whose Subject CN names a domain that is not among its SANs. -/
def csr0 : CertificateRequest :=
  ⟨.ECDSA, "cn.example".data, ["a.example".data], []⟩

def profile0 : Profile := ⟨10, 500⟩

def certProfile0 : certProfileWithID := ⟨"classic", profile0⟩

def reqF0 : IssuanceRequest :=
  ⟨[1, 2], [127], ["a.example".data, "cn.example".data], [], [], false, 10, 500⟩

def issuerMaps0 : IssuerMaps :=
  ⟨fun a =>
    if a = .ECDSA then [issuerECDSA1]
    else if a = .RSA then [issuerRSA1]
    else [],
   [(1, issuerRSA1), (2, issuerECDSA1)]⟩

def ca0 : CAImpl := ⟨true, [("classic", profile0)], issuerMaps0, 127⟩

def req0 : IssueCertificateRequest := ⟨[1], 5, 6, "classic"⟩

/-- An environment in which every outbound call succeeds. -/
def oracle0 : Oracle := {
  randOk := true
  randomBytes := List.replicate 17 0
  addSerialRes := .ok ()
  parseCSRRes := .ok csr0
  verifyCSRRes := .ok ()
  issuerIndex := 0
  skidRes := .ok [1, 2]
  prepareRes := .ok (lintDER0, 7)
  addPrecertificateRes := .ok ()
  issueRes := .ok lintDER0
  setReadyRes := .ok ()
  getSCTsRes := .ok [[1]]
  parsePrecertRes := .ok ⟨127, 2⟩
  getCertificateRes := .notFound
  sctsUnmarshalOk := true
  requestFromPrecertRes := .ok reqF0
  prepareFinalRes := .ok (lintDER0, 8)
  issueFinalRes := .ok lintDER0
  addCertificateRes := .ok () }

theorem prefixOfCons {α : Type} (x : α) {l₁ l₂ : List α} (h : l₁ <+: l₂) :
    x :: l₁ <+: x :: l₂ := by
  obtain ⟨t, ht⟩ := h
  exact ⟨t, by rw [List.cons_append, ht]⟩

theorem prefixOfAppend {α : Type} (A : List α) {l₁ l₂ : List α}
    (h : l₁ <+: l₂) : A ++ l₁ <+: A ++ l₂ := by
  obtain ⟨t, ht⟩ := h
  exact ⟨t, by rw [List.append_assoc, ht]⟩

theorem prefixTrans {α : Type} {l₁ l₂ l₃ : List α} (h1 : l₁ <+: l₂)
    (h2 : l₂ <+: l₃) : l₁ <+: l₃ := by
  obtain ⟨t, rfl⟩ := h1
  obtain ⟨s, rfl⟩ := h2
  exact ⟨t ++ s, by rw [List.append_assoc]⟩

theorem chainTags_inner (ca : CAImpl) (o : Oracle)
    (issueReq : IssueCertificateRequest) (certProfile : certProfileWithID)
    (serialBigInt notBefore notAfter : Nat) :
    chainTags (issuePrecertificateInner ca o issueReq certProfile serialBigInt
      notBefore notAfter).2.1 <+: [.addPrecertificate, .issue] ∧
    (∀ d, (issuePrecertificateInner ca o issueReq certProfile serialBigInt
        notBefore notAfter).1 = .ok d →
      chainTags (issuePrecertificateInner ca o issueReq certProfile serialBigInt
        notBefore notAfter).2.1 = [.addPrecertificate, .issue] ∧
      ∀ der, Event.addPrecertificate der ∈ (issuePrecertificateInner ca o
        issueReq certProfile serialBigInt notBefore notAfter).2.1 →
        ∃ tok, o.prepareRes = .ok (der, tok)) := by
  cases hcsr : o.parseCSRRes with
  | error e =>
    simp only [issuePrecertificateInner, hcsr]
    exact ⟨⟨_, rfl⟩, fun d h => nomatch h⟩
  | ok csr =>
  cases hver : o.verifyCSRRes with
  | error e =>
    simp only [issuePrecertificateInner, hcsr, hver]
    exact ⟨⟨_, rfl⟩, fun d h => nomatch h⟩
  | ok u =>
  cases hch : chooseFromPool (ca.issuers.byAlg csr.publicKeyAlgorithm)
      o.issuerIndex with
  | none =>
    simp only [issuePrecertificateInner, hcsr, hver, hch]
    exact ⟨⟨_, rfl⟩, fun d h => nomatch h⟩
  | some issuer =>
  by_cases hexp : issuer.certNotAfter < notAfter
  · simp only [issuePrecertificateInner, hcsr, hver, hch, if_pos hexp]
    exact ⟨⟨_, rfl⟩, fun d h => nomatch h⟩
  · cases hskid : o.skidRes with
    | error e =>
      simp only [issuePrecertificateInner, hcsr, hver, hch, if_neg hexp, hskid]
      exact ⟨⟨_, rfl⟩, fun d h => nomatch h⟩
    | ok subjectKeyId =>
    cases hprep : o.prepareRes with
    | error e =>
      simp only [issuePrecertificateInner, hcsr, hver, hch, if_neg hexp, hskid,
        hprep]
      exact ⟨⟨[.addPrecertificate, .issue], rfl⟩, fun d h => nomatch h⟩
    | ok p =>
      obtain ⟨lintCertBytes, tok⟩ := p
      cases hapc : o.addPrecertificateRes with
      | error e =>
        simp only [issuePrecertificateInner, hcsr, hver, hch, if_neg hexp,
          hskid, hprep, hapc]
        exact ⟨⟨[.issue], rfl⟩, fun d h => nomatch h⟩
      | ok u2 =>
      cases hiss : o.issueRes with
      | error e =>
        simp only [issuePrecertificateInner, hcsr, hver, hch, if_neg hexp,
          hskid, hprep, hapc, hiss]
        exact ⟨⟨[], by rw [List.append_nil]; exact rfl⟩, fun d h => nomatch h⟩
      | ok certDER =>
      cases htbs : tbsCertIsDeterministic lintCertBytes certDER with
      | error e =>
        simp only [issuePrecertificateInner, hcsr, hver, hch, if_neg hexp,
          hskid, hprep, hapc, hiss, htbs]
        exact ⟨⟨[], by rw [List.append_nil]; exact rfl⟩, fun d h => nomatch h⟩
      | ok u3 =>
        simp only [issuePrecertificateInner, hcsr, hver, hch, if_neg hexp,
          hskid, hprep, hapc, hiss, htbs]
        refine ⟨⟨[], by rw [List.append_nil]; exact rfl⟩,
          fun d hd => ⟨rfl, fun der hder => ?_⟩⟩
        simp at hder
        subst hder
        exact ⟨tok, rfl⟩

theorem chainTags_cons_true (e : Event) (tr : List Event)
    (h : isChainEvent e = true) :
    chainTags (e :: tr) = e.tag :: chainTags tr := by
  simp [chainTags, List.filter_cons, h]

theorem chainTags_append (l1 l2 : List Event) :
    chainTags (l1 ++ l2) = chainTags l1 ++ chainTags l2 := by
  simp [chainTags, List.filter_append]

theorem chainTags_issuePrecertificate (ca : CAImpl) (o : Oracle)
    (certProfile : certProfileWithID) (issueReq : IssueCertificateRequest) :
    chainTags (issuePrecertificate ca o certProfile issueReq).2.1 <+:
      [.addSerial, .addPrecertificate, .issue, .setCertificateStatusReady] ∧
    (∀ d, (issuePrecertificate ca o certProfile issueReq).1 = .ok d →
      chainTags (issuePrecertificate ca o certProfile issueReq).2.1 =
        [.addSerial, .addPrecertificate, .issue, .setCertificateStatusReady] ∧
      ∀ der, Event.addPrecertificate der ∈
          (issuePrecertificate ca o certProfile issueReq).2.1 →
        ∃ tok, o.prepareRes = .ok (der, tok)) := by
  cases hgen : generateSerialNumber ca.serialPrefix o.randOk o.randomBytes with
  | error e =>
    simp only [issuePrecertificate, hgen]
    exact ⟨⟨_, rfl⟩, fun d h => nomatch h⟩
  | ok serialBigInt =>
  cases hass : o.addSerialRes with
  | error e =>
    simp only [issuePrecertificate, hgen, hass]
    exact ⟨⟨_, rfl⟩, fun d h => nomatch h⟩
  | ok u =>
    obtain ⟨H1, H2⟩ := chainTags_inner ca o issueReq certProfile serialBigInt
      certProfile.profile.notBefore certProfile.profile.notAfter
    rcases hinner : issuePrecertificateInner ca o issueReq certProfile
        serialBigInt certProfile.profile.notBefore certProfile.profile.notAfter
      with ⟨res, tr, lint⟩
    rw [hinner] at H1 H2
    have H1' : chainTags tr <+: [.addPrecertificate, .issue] := H1
    cases res with
    | error e =>
      simp only [issuePrecertificate, hgen, hass, hinner]
      refine ⟨?_, fun d h => nomatch h⟩
      rw [chainTags_cons_true Event.addSerial tr rfl]
      exact prefixOfCons _
        (prefixTrans H1' ⟨[.setCertificateStatusReady], rfl⟩)
    | ok der0 =>
      have hc : chainTags tr = [.addPrecertificate, .issue] :=
        (H2 der0 rfl).1
      have hp : ∀ der, Event.addPrecertificate der ∈ tr →
          ∃ tok, o.prepareRes = .ok (der, tok) :=
        (H2 der0 rfl).2
      have hfull : chainTags (Event.addSerial :: tr ++
          [Event.setCertificateStatusReady]) =
          [.addSerial, .addPrecertificate, .issue,
            .setCertificateStatusReady] := by
        rw [chainTags_append, chainTags_cons_true Event.addSerial tr rfl, hc]
        exact rfl
      cases hsr : o.setReadyRes with
      | error e =>
        simp only [issuePrecertificate, hgen, hass, hinner, hsr]
        refine ⟨⟨[], ?_⟩, fun d h => nomatch h⟩
        rw [List.append_nil, hfull]
      | ok u2 =>
        simp only [issuePrecertificate, hgen, hass, hinner, hsr]
        refine ⟨⟨[], ?_⟩, fun d h => ⟨hfull, fun der hder => ?_⟩⟩
        · rw [List.append_nil, hfull]
        · simp at hder
          exact hp der hder

theorem chainTags_final (ca : CAImpl) (o : Oracle)
    (certProfile : certProfileWithID) (precertDER : List Nat)
    (sctBytes : List (List Nat)) (regID orderID : Int) :
    chainTags (issueCertificateForPrecertificate ca o certProfile precertDER
      sctBytes regID orderID).2 <+: [.issue, .addCertificate] ∧
    (∀ d, (issueCertificateForPrecertificate ca o certProfile precertDER
        sctBytes regID orderID).1 = .ok d →
      chainTags (issueCertificateForPrecertificate ca o certProfile precertDER
        sctBytes regID orderID).2 = [.issue, .addCertificate]) ∧
    (∀ der, Event.addPrecertificate der ∉
      (issueCertificateForPrecertificate ca o certProfile precertDER
        sctBytes regID orderID).2) := by
  cases hpp : o.parsePrecertRes with
  | error e =>
    simp only [issueCertificateForPrecertificate, hpp]
    exact ⟨⟨_, rfl⟩, fun d h => (nomatch h), fun der h => by simp at h⟩
  | ok precert =>
  cases hgc : o.getCertificateRes with
  | found =>
    simp only [issueCertificateForPrecertificate, hpp, hgc]
    exact ⟨⟨_, rfl⟩, fun d h => (nomatch h), fun der h => by simp at h⟩
  | otherErr msg =>
    simp only [issueCertificateForPrecertificate, hpp, hgc]
    exact ⟨⟨_, rfl⟩, fun d h => (nomatch h), fun der h => by simp at h⟩
  | notFound =>
  cases hsct : o.sctsUnmarshalOk with
  | false =>
    simp only [issueCertificateForPrecertificate, hpp, hgc, hsct,
      Bool.not_false, if_pos]
    exact ⟨⟨_, rfl⟩, fun d h => (nomatch h), fun der h => by simp at h⟩
  | true =>
  cases hlook : ca.issuers.byNameID.lookup precert.issuerNameID with
  | none =>
    simp only [issueCertificateForPrecertificate, hpp, hgc, hsct,
      Bool.not_true, if_neg, hlook]
    exact ⟨⟨_, rfl⟩, fun d h => (nomatch h), fun der h => by simp at h⟩
  | some issuer =>
  cases hrfp : o.requestFromPrecertRes with
  | error e =>
    simp only [issueCertificateForPrecertificate, hpp, hgc, hsct,
      Bool.not_true, if_neg, hlook, hrfp]
    exact ⟨⟨_, rfl⟩, fun d h => (nomatch h), fun der h => by simp at h⟩
  | ok issuanceReq =>
  cases hpf : o.prepareFinalRes with
  | error e =>
    simp only [issueCertificateForPrecertificate, hpp, hgc, hsct,
      Bool.not_true, if_neg, hlook, hrfp, hpf]
    exact ⟨⟨_, rfl⟩, fun d h => (nomatch h), fun der h => by simp at h⟩
  | ok p =>
  obtain ⟨lintCertBytes, tok⟩ := p
  cases hif : o.issueFinalRes with
  | error e =>
    simp only [issueCertificateForPrecertificate, hpp, hgc, hsct,
      Bool.not_true, if_neg, hlook, hrfp, hpf, hif]
    exact ⟨⟨[.addCertificate], rfl⟩, fun d h => (nomatch h), fun der h => by simp at h⟩
  | ok certDER =>
  cases htbs : tbsCertIsDeterministic lintCertBytes certDER with
  | error e =>
    simp only [issueCertificateForPrecertificate, hpp, hgc, hsct,
      Bool.not_true, if_neg, hlook, hrfp, hpf, hif, htbs]
    exact ⟨⟨[.addCertificate], rfl⟩, fun d h => (nomatch h), fun der h => by simp at h⟩
  | ok u =>
  cases hac : o.addCertificateRes with
  | error e =>
    simp only [issueCertificateForPrecertificate, hpp, hgc, hsct,
      Bool.not_true, if_neg, hlook, hrfp, hpf, hif, htbs, hac]
    exact ⟨⟨[], by rw [List.append_nil]; exact rfl⟩, fun d h => (nomatch h), fun der h => by simp at h⟩
  | ok u2 =>
    simp only [issueCertificateForPrecertificate, hpp, hgc, hsct,
      Bool.not_true, if_neg, hlook, hrfp, hpf, hif, htbs, hac]
    exact ⟨⟨[], by rw [List.append_nil]; exact rfl⟩, fun d h => rfl, fun der h => by simp at h⟩

/-- C2: within every single issuance through `IssueCertificate`, the
chain-relevant calls (the Storage Authority writes plus the HSM `Issue`
calls) always form a prefix of `[AddSerial, AddPrecertificate, Issue,
SetCertificateStatusReady, Issue, AddCertificate]` — so each SA write
occurs at most once and no later operation of the chain is invoked once
an earlier one has failed — and on a successful issuance the chain is
complete: each SA write occurs exactly once, in the strict order
AddSerial, then AddPrecertificate (persisting exactly the lint DER
returned by Prepare), then the HSM Issue call for the precertificate,
then SetCertificateStatusReady, then (after the final-certificate
Issue) AddCertificate. -/
theorem IssueCertificate_ordering (ca : CAImpl) (o : Oracle)
    (issueReq : IssueCertificateRequest) :
    chainTags (IssueCertificate ca o issueReq).2.1 <+:
      [.addSerial, .addPrecertificate, .issue, .setCertificateStatusReady,
        .issue, .addCertificate] ∧
    (∀ d, (IssueCertificate ca o issueReq).1 = .ok d →
      chainTags (IssueCertificate ca o issueReq).2.1 =
        [.addSerial, .addPrecertificate, .issue, .setCertificateStatusReady,
          .issue, .addCertificate] ∧
      ∀ der, Event.addPrecertificate der ∈
          (IssueCertificate ca o issueReq).2.1 →
        ∃ tok, o.prepareRes = .ok (der, tok)) := by
  cases hreq : requestIncomplete issueReq with
  | true =>
    simp only [IssueCertificate, hreq, if_pos]
    exact ⟨⟨_, rfl⟩, fun d h => nomatch h⟩
  | false =>
  cases hsc : ca.hasSctClient with
  | false =>
    simp only [IssueCertificate, hreq, hsc, Bool.not_false, if_neg, if_pos]
    exact ⟨⟨_, rfl⟩, fun d h => nomatch h⟩
  | true =>
  cases hprof : ca.certProfiles.lookup issueReq.certProfileName with
  | none =>
    simp only [IssueCertificate, hreq, hsc, Bool.not_true, if_neg, hprof]
    exact ⟨⟨_, rfl⟩, fun d h => nomatch h⟩
  | some profile =>
    obtain ⟨P1, P2⟩ := chainTags_issuePrecertificate ca o
      ⟨issueReq.certProfileName, profile⟩ issueReq
    rcases hpre : issuePrecertificate ca o ⟨issueReq.certProfileName, profile⟩
      issueReq with ⟨res, tr, lint⟩
    rw [hpre] at P1 P2
    have P1' : chainTags tr <+:
        [.addSerial, .addPrecertificate, .issue,
          .setCertificateStatusReady] := P1
    cases res with
    | error e =>
      simp only [IssueCertificate, hreq, hsc, Bool.not_true, if_neg, hprof,
        hpre]
      exact ⟨prefixTrans P1' ⟨[.issue, .addCertificate], rfl⟩,
        fun d h => nomatch h⟩
    | ok precertDER =>
      have hce : chainTags tr =
          [.addSerial, .addPrecertificate, .issue,
            .setCertificateStatusReady] :=
        (P2 precertDER rfl).1
      have hpd : ∀ der, Event.addPrecertificate der ∈ tr →
          ∃ tok, o.prepareRes = .ok (der, tok) :=
        (P2 precertDER rfl).2
      cases hscts : o.getSCTsRes with
      | error e =>
        simp only [IssueCertificate, hreq, hsc, Bool.not_true, if_neg, hprof,
          hpre, hscts]
        refine ⟨⟨[.issue, .addCertificate], ?_⟩, fun d h => nomatch h⟩
        show chainTags (tr ++ [Event.getSCTs]) ++
          [EventTag.issue, EventTag.addCertificate] =
          [.addSerial, .addPrecertificate, .issue, .setCertificateStatusReady,
            .issue, .addCertificate]
        rw [chainTags_append, hce]
        exact rfl
      | ok scts =>
        obtain ⟨F1, F2, F3⟩ := chainTags_final ca o
          ⟨issueReq.certProfileName, profile⟩ precertDER scts
          issueReq.registrationID issueReq.orderID
        rcases hfin : issueCertificateForPrecertificate ca o
            ⟨issueReq.certProfileName, profile⟩ precertDER scts
            issueReq.registrationID issueReq.orderID with ⟨res2, tr2⟩
        rw [hfin] at F1 F2 F3
        have F1' : chainTags tr2 <+: [.issue, .addCertificate] := F1
        have F3' : ∀ der, Event.addPrecertificate der ∉ tr2 := F3
        cases res2 with
        | error e =>
          simp only [IssueCertificate, hreq, hsc, Bool.not_true, if_neg,
            hprof, hpre, hscts, hfin]
          refine ⟨?_, fun d h => nomatch h⟩
          show chainTags ((tr ++ [Event.getSCTs]) ++ tr2) <+:
            [.addSerial, .addPrecertificate, .issue,
              .setCertificateStatusReady, .issue, .addCertificate]
          rw [chainTags_append, chainTags_append, hce]
          exact prefixOfAppend
            [.addSerial, .addPrecertificate, .issue,
              .setCertificateStatusReady] F1'
        | ok certDER =>
          have hcf : chainTags tr2 = [.issue, .addCertificate] :=
            F2 certDER rfl
          simp only [IssueCertificate, hreq, hsc, Bool.not_true, if_neg,
            hprof, hpre, hscts, hfin]
          refine ⟨?_, fun d h => ⟨?_, fun der hder => ?_⟩⟩
          · refine ⟨[], ?_⟩
            show chainTags ((tr ++ [Event.getSCTs]) ++ tr2) ++ [] =
              [.addSerial, .addPrecertificate, .issue,
                .setCertificateStatusReady, .issue, .addCertificate]
            rw [List.append_nil, chainTags_append, chainTags_append, hce, hcf]
            exact rfl
          · show chainTags ((tr ++ [Event.getSCTs]) ++ tr2) =
              [.addSerial, .addPrecertificate, .issue,
                .setCertificateStatusReady, .issue, .addCertificate]
            rw [chainTags_append, chainTags_append, hce, hcf]
            exact rfl
          · replace hder : Event.addPrecertificate der ∈
                (tr ++ [Event.getSCTs]) ++ tr2 := hder
            simp only [List.mem_append, List.mem_singleton] at hder
            rcases hder with (hder | hder) | hder
            · exact hpd der hder
            · exact absurd hder (by simp)
            · exact absurd hder (F3' der)

/-- Witness for C2: the all-successful environment produces exactly the
chain AddSerial, AddPrecertificate, Issue, SetCertificateStatusReady,
Issue, AddCertificate. -/
theorem IssueCertificate_ordering_witness :
    chainTags (IssueCertificate ca0 oracle0 req0).2.1 =
      [.addSerial, .addPrecertificate, .issue, .setCertificateStatusReady,
        .issue, .addCertificate] :=
  ((IssueCertificate_ordering ca0 oracle0 req0).2 lintDER0 (by rfl)).1

/-- C3: when `GetCertificate` succeeds (a final certificate already
exists for the serial), `issueCertificateForPrecertificate` returns
InternalServerError "issuance of duplicate final certificate requested:
serial" having made no Prepare, Issue, or AddCertificate call (only
the GetCertificate read is in its trace); when `GetCertificate` fails
with any error other than NotFound it aborts with an error equally
before any signing. -/
theorem issueCertificateForPrecertificate_duplicate (ca : CAImpl)
    (o : Oracle) (certProfile : certProfileWithID) (precertDER : List Nat)
    (sctBytes : List (List Nat)) (regID orderID : Int) (precert : Precert)
    (hparse : o.parsePrecertRes = .ok precert) :
    (o.getCertificateRes = .found →
      (issueCertificateForPrecertificate ca o certProfile precertDER sctBytes
        regID orderID).1 =
        .error ⟨.internalServerError,
          "issuance of duplicate final certificate requested: " ++
            serialToString precert.serialNumber⟩ ∧
      (issueCertificateForPrecertificate ca o certProfile precertDER sctBytes
        regID orderID).2 = [.getCertificate]) ∧
    (∀ msg, o.getCertificateRes = .otherErr msg →
      (issueCertificateForPrecertificate ca o certProfile precertDER sctBytes
        regID orderID).1 =
        .error ⟨.plain,
          "error checking for duplicate issuance of " ++
            serialToString precert.serialNumber ++ ": " ++ msg⟩ ∧
      (issueCertificateForPrecertificate ca o certProfile precertDER sctBytes
        regID orderID).2 = [.getCertificate]) := by
  constructor
  · intro hgc
    simp only [issueCertificateForPrecertificate, hparse, hgc]
    exact ⟨by trivial, by trivial⟩
  · intro msg hgc
    simp only [issueCertificateForPrecertificate, hparse, hgc]
    exact ⟨by trivial, by trivial⟩

/-- An environment in which the duplicate check finds an existing final
certificate. -/
def oracleDup : Oracle := { oracle0 with getCertificateRes := .found }

/-- Witness for C3 at a concrete duplicate-final environment. -/
theorem issueCertificateForPrecertificate_duplicate_witness :
    (issueCertificateForPrecertificate ca0 oracleDup certProfile0 lintDER0
      [[1]] 5 6).1 =
      .error ⟨.internalServerError,
        "issuance of duplicate final certificate requested: " ++
          serialToString 127⟩ ∧
    (issueCertificateForPrecertificate ca0 oracleDup certProfile0 lintDER0
      [[1]] 5 6).2 = [.getCertificate] :=
  (issueCertificateForPrecertificate_duplicate ca0 oracleDup certProfile0
    lintDER0 [[1]] 5 6 ⟨127, 2⟩ rfl).1 rfl

/-- C5: if `issuer.Prepare` fails during the precertificate path (the
Prepare call appears in the trace and the oracle's Prepare outcome is
an error), then no `Issue` call and no `AddPrecertificate` write occur,
the returned error is InternalServerError "failed to prepare
precertificate signing: err", and the `lint_errors` counter is
incremented by exactly one when — and only when — the failure is a
linting error. -/
theorem issuePrecertificate_prepareFailure (ca : CAImpl) (o : Oracle)
    (certProfile : certProfileWithID) (issueReq : IssueCertificateRequest)
    (pe : PrepareErr) (hprep : o.prepareRes = .error pe)
    (hreached : ∃ dns, Event.prepare dns ∈
      (issuePrecertificate ca o certProfile issueReq).2.1) :
    (issuePrecertificate ca o certProfile issueReq).1 =
      .error ⟨.internalServerError,
        "failed to prepare precertificate signing: " ++ pe.msg⟩ ∧
    Event.issue ∉ (issuePrecertificate ca o certProfile issueReq).2.1 ∧
    (∀ der, Event.addPrecertificate der ∉
      (issuePrecertificate ca o certProfile issueReq).2.1) ∧
    (issuePrecertificate ca o certProfile issueReq).2.2 =
      (if pe.isLint then 1 else 0) := by
  obtain ⟨dns0, hdns⟩ := hreached
  cases hgen : generateSerialNumber ca.serialPrefix o.randOk o.randomBytes with
  | error e =>
    simp only [issuePrecertificate, hgen] at hdns
    simp at hdns
  | ok serialBigInt =>
  cases hass : o.addSerialRes with
  | error e =>
    simp only [issuePrecertificate, hgen, hass] at hdns
    simp at hdns
  | ok u =>
  cases hcsr : o.parseCSRRes with
  | error e =>
    simp only [issuePrecertificate, issuePrecertificateInner, hgen, hass,
      hcsr] at hdns
    simp at hdns
  | ok csr =>
  cases hver : o.verifyCSRRes with
  | error e =>
    simp only [issuePrecertificate, issuePrecertificateInner, hgen, hass,
      hcsr, hver] at hdns
    simp at hdns
  | ok u2 =>
  cases hch : chooseFromPool (ca.issuers.byAlg csr.publicKeyAlgorithm)
      o.issuerIndex with
  | none =>
    simp only [issuePrecertificate, issuePrecertificateInner, hgen, hass,
      hcsr, hver, hch] at hdns
    simp at hdns
  | some issuer =>
  by_cases hexp : issuer.certNotAfter < certProfile.profile.notAfter
  · simp only [issuePrecertificate, issuePrecertificateInner, hgen, hass,
      hcsr, hver, hch, if_pos hexp] at hdns
    simp at hdns
  · cases hskid : o.skidRes with
    | error e =>
      simp only [issuePrecertificate, issuePrecertificateInner, hgen, hass,
        hcsr, hver, hch, if_neg hexp, hskid] at hdns
      simp at hdns
    | ok subjectKeyId =>
      simp only [issuePrecertificate, issuePrecertificateInner, hgen, hass,
        hcsr, hver, hch, if_neg hexp, hskid, hprep]
      refine ⟨by trivial, by simp, fun der => by simp, by trivial⟩

/-- A Prepare failure which is a linting error. -/
def oracleLint : Oracle := { oracle0 with prepareRes := .error ⟨true, "lint"⟩ }

/-- Witness for C5: a lint failure in Prepare yields the
InternalServerError, no Issue, no AddPrecertificate, and exactly one
`lint_errors` increment. -/
theorem issuePrecertificate_prepareFailure_witness :
    (issuePrecertificate ca0 oracleLint certProfile0 req0).1 =
      .error ⟨.internalServerError,
        "failed to prepare precertificate signing: " ++ "lint"⟩ ∧
    Event.issue ∉ (issuePrecertificate ca0 oracleLint certProfile0 req0).2.1 ∧
    (∀ der, Event.addPrecertificate der ∉
      (issuePrecertificate ca0 oracleLint certProfile0 req0).2.1) ∧
    (issuePrecertificate ca0 oracleLint certProfile0 req0).2.2 =
      (if (true : Bool) then 1 else 0) :=
  issuePrecertificate_prepareFailure ca0 oracleLint certProfile0 req0
    ⟨true, "lint"⟩ rfl
    ⟨["a.example".data, "cn.example".data], by decide⟩

/-- C6 (amended): when the chosen issuer's own certificate NotAfter is
before the to-be-issued certificate's NotAfter, the precertificate
issuance fails with InternalServerError "cannot issue a certificate
that expires after the issuer certificate" (this exact message — not
the spec's paraphrase "cannot issue past issuer expiry") and its trace
is empty: no AddPrecertificate write, no Prepare and no Issue call. -/
theorem issuePrecertificateInner_issuerExpiry (ca : CAImpl) (o : Oracle)
    (issueReq : IssueCertificateRequest) (certProfile : certProfileWithID)
    (serialBigInt notBefore notAfter : Nat) (csr : CertificateRequest)
    (issuer : Issuer)
    (hcsr : o.parseCSRRes = .ok csr)
    (hver : o.verifyCSRRes = .ok ())
    (hch : chooseFromPool (ca.issuers.byAlg csr.publicKeyAlgorithm)
      o.issuerIndex = some issuer)
    (hexp : issuer.certNotAfter < notAfter) :
    (issuePrecertificateInner ca o issueReq certProfile serialBigInt
      notBefore notAfter).1 =
      .error ⟨.internalServerError,
        "cannot issue a certificate that expires after the issuer certificate"⟩ ∧
    (issuePrecertificateInner ca o issueReq certProfile serialBigInt
      notBefore notAfter).2.1 = [] := by
  simp only [issuePrecertificateInner, hcsr, hver, hch, if_pos hexp]
  exact ⟨by trivial, by trivial⟩

/-- An active ECDSA issuer whose own certificate expires early. -/
def issuerExpiring : Issuer := ⟨"int-ecdsa-b", 3, .ECDSA, true, 100⟩

def issuerMapsExp : IssuerMaps :=
  ⟨fun a =>
    if a = .ECDSA then [issuerExpiring]
    else if a = .RSA then [issuerRSA1]
    else [],
   [(1, issuerRSA1), (3, issuerExpiring)]⟩

def caExp : CAImpl := ⟨true, [("classic", profile0)], issuerMapsExp, 127⟩

/-- Counterexample for C6 as stated: at a concrete issuance whose
chosen issuer expires before the requested NotAfter, the returned error
is not the message the claim quotes ("cannot issue past issuer expiry")
but "cannot issue a certificate that expires after the issuer
certificate". -/
theorem issuePrecertificateInner_issuerExpiry_counterexample :
    issuerExpiring.certNotAfter < 500 ∧
    (issuePrecertificateInner caExp oracle0 req0 certProfile0 127 10 500).1 ≠
      .error ⟨.internalServerError, "cannot issue past issuer expiry"⟩ ∧
    (issuePrecertificateInner caExp oracle0 req0 certProfile0 127 10 500).1 =
      .error ⟨.internalServerError,
        "cannot issue a certificate that expires after the issuer certificate"⟩ := by
  have ceq : (issuePrecertificateInner caExp oracle0 req0 certProfile0 127 10
      500).1 =
      .error ⟨.internalServerError,
        "cannot issue a certificate that expires after the issuer certificate"⟩ :=
    rfl
  refine ⟨by decide, ?_, ceq⟩
  rw [ceq]
  simp

/-- Witness for the amended C6 at the same concrete input. -/
theorem issuePrecertificateInner_issuerExpiry_witness :
    (issuePrecertificateInner caExp oracle0 req0 certProfile0 127 10 500).1 =
      .error ⟨.internalServerError,
        "cannot issue a certificate that expires after the issuer certificate"⟩ ∧
    (issuePrecertificateInner caExp oracle0 req0 certProfile0 127 10
      500).2.1 = [] :=
  issuePrecertificateInner_issuerExpiry caExp oracle0 req0 certProfile0 127
    10 500 csr0 issuerExpiring rfl rfl (by rfl) (by decide)

/-- C7 (amended): an `IssueCertificate` call whose CertProfileName is
not in the configured profiles map fails with the untyped (plain
`fmt.Errorf`, not berrors NotFound/Malformed) error "the CA is
incapable of using a profile named X", and performs no Storage
Authority calls at all (empty trace). -/
theorem IssueCertificate_unknownProfile (ca : CAImpl) (o : Oracle)
    (issueReq : IssueCertificateRequest)
    (hreq : requestIncomplete issueReq = false)
    (hsct : ca.hasSctClient = true)
    (hprof : ca.certProfiles.lookup issueReq.certProfileName = none) :
    (IssueCertificate ca o issueReq).1 =
      .error ⟨.plain,
        "the CA is incapable of using a profile named " ++
          issueReq.certProfileName⟩ ∧
    (IssueCertificate ca o issueReq).2.1 = [] := by
  simp only [IssueCertificate, hreq, hsct, hprof]
  exact ⟨by trivial, by trivial⟩

/-- A request naming a profile absent from the configuration. -/
def reqBadProfile : IssueCertificateRequest := ⟨[1], 5, 6, "bogus"⟩

/-- Counterexample for C7 as stated: the unknown-profile failure is a
plain untyped error, not a NotFound or Malformed one. -/
theorem IssueCertificate_unknownProfile_counterexample :
    (IssueCertificate ca0 oracle0 reqBadProfile).1 =
      .error ⟨.plain, "the CA is incapable of using a profile named bogus"⟩ ∧
    (IssueCertificate ca0 oracle0 reqBadProfile).1 ≠
      .error ⟨.notFound, "the CA is incapable of using a profile named bogus"⟩ ∧
    (IssueCertificate ca0 oracle0 reqBadProfile).1 ≠
      .error ⟨.malformed,
        "the CA is incapable of using a profile named bogus"⟩ ∧
    (IssueCertificate ca0 oracle0 reqBadProfile).2.1 = [] := by
  have ceq : (IssueCertificate ca0 oracle0 reqBadProfile).1 =
      .error ⟨.plain, "the CA is incapable of using a profile named bogus"⟩ :=
    rfl
  refine ⟨ceq, ?_, ?_, by rfl⟩
  · rw [ceq]
    simp
  · rw [ceq]
    simp

/-- Witness for the amended C7 at the same concrete input. -/
theorem IssueCertificate_unknownProfile_witness :
    (IssueCertificate ca0 oracle0 reqBadProfile).1 =
      .error ⟨.plain,
        "the CA is incapable of using a profile named " ++ "bogus"⟩ ∧
    (IssueCertificate ca0 oracle0 reqBadProfile).2.1 = [] :=
  IssueCertificate_unknownProfile ca0 oracle0 reqBadProfile rfl rfl rfl

/-- The SAN list `fromX509` assembles before normalizing. -/
def sansOf (commonName : List Char) (dnsNames ipAddresses : List (List Char)) :
    List ACMEIdentifier :=
  (if commonName ≠ [] then dnsNames.map NewDNS ++ [NewDNS commonName]
   else dnsNames.map NewDNS) ++
    ipAddresses.map (fun ip => ⟨.ip, ip⟩)

theorem fromX509_eq_normalize (commonName : List Char)
    (dnsNames ipAddresses : List (List Char)) :
    fromX509 commonName dnsNames ipAddresses =
      Normalize (sansOf commonName dnsNames ipAddresses) := rfl

theorem mem_toValues_dns (idents : List ACMEIdentifier) (v : List Char) :
    v ∈ (ToValues idents).1 ↔
      ∃ i, i ∈ idents ∧ i.idType = .dns ∧ i.value = v := by
  unfold ToValues
  simp only [List.mem_filterMap]
  constructor
  · rintro ⟨i, hi, hf⟩
    by_cases ht : i.idType = .dns
    · rw [if_pos ht] at hf
      injection hf with hf
      exact ⟨i, hi, ht, hf⟩
    · rw [if_neg ht] at hf
      cases hf
  · rintro ⟨i, hi, ht, hv⟩
    exact ⟨i, hi, by rw [if_pos ht, hv]⟩

theorem cn_mem_fromX509 (cn : List Char) (dnsNames ips : List (List Char))
    (hcn : cn ≠ []) :
    toLowerValue cn ∈ (ToValues (fromX509 cn dnsNames ips)).1 := by
  rw [mem_toValues_dns]
  refine ⟨⟨.dns, toLowerValue cn⟩, ?_, rfl, rfl⟩
  rw [fromX509_eq_normalize]
  rw [mem_Normalize]
  rw [List.mem_map]
  refine ⟨NewDNS cn, ?_, rfl⟩
  unfold sansOf
  rw [if_pos hcn]
  simp [NewDNS]

theorem fromX509_dns_sources (cn : List Char) (dnsNames ips : List (List Char)) :
    ∀ v ∈ (ToValues (fromX509 cn dnsNames ips)).1,
      (∃ src ∈ dnsNames, v = toLowerValue src) ∨ v = toLowerValue cn := by
  intro v hv
  rw [mem_toValues_dns] at hv
  obtain ⟨i, hi, ht, hval⟩ := hv
  rw [fromX509_eq_normalize, mem_Normalize, List.mem_map] at hi
  obtain ⟨j, hj, rfl⟩ := hi
  unfold sansOf at hj
  rw [List.mem_append] at hj
  rcases hj with hj | hj
  · by_cases hcn : cn ≠ []
    · rw [if_pos hcn, List.mem_append] at hj
      rcases hj with hj | hj
      · rw [List.mem_map] at hj
        obtain ⟨src, hsrc, rfl⟩ := hj
        exact Or.inl ⟨src, hsrc, by rw [← hval]; rfl⟩
      · rw [List.mem_singleton] at hj
        subst hj
        exact Or.inr (by rw [← hval]; rfl)
    · rw [if_neg hcn, List.mem_map] at hj
      obtain ⟨src, hsrc, rfl⟩ := hj
      exact Or.inl ⟨src, hsrc, by rw [← hval]; rfl⟩
  · rw [List.mem_map] at hj
    obtain ⟨ip, hip, rfl⟩ := hj
    exact absurd ht (by simp [lowerIdent])

/-- C9 (amended): every DNS-name list handed to `Prepare` during the
precertificate path is exactly the (lowercased, deduplicated, sorted)
DNS values of `identifier.FromCSR(csr)` — which are drawn from the
CSR's DNS SANs *together with* the Subject Common Name: a non-empty CN
is always among the DNS names handed to Prepare (appended by
`fromX509` as a DNS identifier even when it appears in no SAN), and
every name handed to Prepare is the lowercase form of a DNS SAN or of
the CN. -/
theorem issuePrecertificateInner_dnsFromSANsAndCN (ca : CAImpl) (o : Oracle)
    (issueReq : IssueCertificateRequest) (certProfile : certProfileWithID)
    (serialBigInt notBefore notAfter : Nat) (csr : CertificateRequest)
    (hcsr : o.parseCSRRes = .ok csr) :
    ∀ dns, Event.prepare dns ∈ (issuePrecertificateInner ca o issueReq
        certProfile serialBigInt notBefore notAfter).2.1 →
      dns = (ToValues (FromCSR csr)).1 ∧
      (csr.subjectCommonName ≠ [] →
        toLowerValue csr.subjectCommonName ∈ dns) ∧
      (∀ v ∈ dns, (∃ src ∈ csr.dnsNames, v = toLowerValue src) ∨
        v = toLowerValue csr.subjectCommonName) := by
  have hgoal : ∀ dns, dns = (ToValues (FromCSR csr)).1 →
      dns = (ToValues (FromCSR csr)).1 ∧
      (csr.subjectCommonName ≠ [] →
        toLowerValue csr.subjectCommonName ∈ dns) ∧
      (∀ v ∈ dns, (∃ src ∈ csr.dnsNames, v = toLowerValue src) ∨
        v = toLowerValue csr.subjectCommonName) := by
    rintro dns rfl
    exact ⟨rfl,
      fun hcn => cn_mem_fromX509 csr.subjectCommonName csr.dnsNames
        csr.ipAddresses hcn,
      fromX509_dns_sources csr.subjectCommonName csr.dnsNames
        csr.ipAddresses⟩
  intro dns hdns
  cases hver : o.verifyCSRRes with
  | error e =>
    simp only [issuePrecertificateInner, hcsr, hver] at hdns
    simp at hdns
  | ok u =>
  cases hch : chooseFromPool (ca.issuers.byAlg csr.publicKeyAlgorithm)
      o.issuerIndex with
  | none =>
    simp only [issuePrecertificateInner, hcsr, hver, hch] at hdns
    simp at hdns
  | some issuer =>
  by_cases hexp : issuer.certNotAfter < notAfter
  · simp only [issuePrecertificateInner, hcsr, hver, hch, if_pos hexp] at hdns
    simp at hdns
  · cases hskid : o.skidRes with
    | error e =>
      simp only [issuePrecertificateInner, hcsr, hver, hch, if_neg hexp,
        hskid] at hdns
      simp at hdns
    | ok subjectKeyId =>
    cases hprep : o.prepareRes with
    | error e =>
      simp only [issuePrecertificateInner, hcsr, hver, hch, if_neg hexp,
        hskid, hprep] at hdns
      simp at hdns
      exact hgoal dns hdns
    | ok p =>
      obtain ⟨lintCertBytes, tok⟩ := p
      cases hapc : o.addPrecertificateRes with
      | error e =>
        simp only [issuePrecertificateInner, hcsr, hver, hch, if_neg hexp,
          hskid, hprep, hapc] at hdns
        simp at hdns
        exact hgoal dns hdns
      | ok u2 =>
      cases hiss : o.issueRes with
      | error e =>
        simp only [issuePrecertificateInner, hcsr, hver, hch, if_neg hexp,
          hskid, hprep, hapc, hiss] at hdns
        simp at hdns
        exact hgoal dns hdns
      | ok certDER =>
      cases htbs : tbsCertIsDeterministic lintCertBytes certDER with
      | error e =>
        simp only [issuePrecertificateInner, hcsr, hver, hch, if_neg hexp,
          hskid, hprep, hapc, hiss, htbs] at hdns
        simp at hdns
        exact hgoal dns hdns
      | ok u3 =>
        simp only [issuePrecertificateInner, hcsr, hver, hch, if_neg hexp,
          hskid, hprep, hapc, hiss, htbs] at hdns
        simp at hdns
        exact hgoal dns hdns

/-- Counterexample for C9 as stated: for a CSR whose Subject CN
`cn.example` appears in no SAN, the DNS names handed to `Prepare`
nevertheless contain `cn.example`. -/
theorem issuePrecertificateInner_cnOnly_counterexample :
    Event.prepare ["a.example".data, "cn.example".data] ∈
      (issuePrecertificateInner ca0 oracle0 req0 certProfile0 127 10
        500).2.1 ∧
    "cn.example".data = csr0.subjectCommonName ∧
    "cn.example".data ∈ ["a.example".data, "cn.example".data] ∧
    "cn.example".data ∉ csr0.dnsNames := by
  refine ⟨by decide, by decide, by decide, by decide⟩

/-- Witness for the amended C9 at the concrete CN-only CSR. -/
theorem issuePrecertificateInner_dnsFromSANsAndCN_witness :
    ["a.example".data, "cn.example".data] = (ToValues (FromCSR csr0)).1 ∧
    (csr0.subjectCommonName ≠ [] →
      toLowerValue csr0.subjectCommonName ∈
        ["a.example".data, "cn.example".data]) ∧
    (∀ v ∈ ["a.example".data, "cn.example".data],
      (∃ src ∈ csr0.dnsNames, v = toLowerValue src) ∨
        v = toLowerValue csr0.subjectCommonName) :=
  issuePrecertificateInner_dnsFromSANsAndCN ca0 oracle0 req0 certProfile0
    127 10 500 csr0 rfl ["a.example".data, "cn.example".data] (by decide)

/-- Witness for C1: on a concrete well-formed DER pair with equal TBS
octets the check passes. -/
theorem tbsCertIsDeterministic_ok_iff_witness :
    tbsCertIsDeterministic lintDER0 lintDER0 = .ok () :=
  (tbsCertIsDeterministic_ok_iff lintDER0 lintDER0).mpr
    ⟨by decide, by decide, [170], rfl, rfl, by decide⟩

/-- A mixed identifier list for the C10 witness. -/
def identsW : List ACMEIdentifier :=
  [⟨.ip, "10.0.0.1".data⟩, ⟨.dns, "b.example".data⟩, ⟨.dns, "a.example".data⟩]

/-- Witness for C10: idempotence at a concrete identifier list. -/
theorem Normalize_spec_witness :
    Normalize (Normalize identsW) = Normalize identsW :=
  (Normalize_spec identsW).2.2.2

end Boulder
